import Mathlib

/-!
# Currency conversion gateway (package `currency`)

A shallow embedding of `pkg/currency/controller.go` and `pkg/currency/converter.go`.

Go strings are modelled as lists of characters (`GoString`); string literals of the
source are written `"...".toList`.  The Go standard library that the package calls
(`encoding/json`, `net/url`, `net/http` client, `strconv.IsPrint`) is not part of the
repository: its entry points are taken as parameters (`Stdlib`, `apiLayerConverter.client`).
A Go `panic` is an explicit outcome.
-/

namespace CurrencyConversion

/-- Go `string`, as its sequence of characters. -/
abbrev GoString := List Char

/-! ## Package `strings` -/

namespace strings

/-- Scan of `strings.Index`: position of the first occurrence of `substr` at or after
offset `i`, or `-1`. -/
def indexFrom (substr : GoString) : GoString → Nat → Int
  | [], i => if substr = [] then (i : Int) else -1
  | c :: cs, i => if substr.isPrefixOf (c :: cs) then (i : Int) else indexFrom substr cs (i + 1)

/-- Go `strings.Index(s, substr)`: index of the first instance of `substr` in `s`, or `-1`. -/
def Index (s substr : GoString) : Int := indexFrom substr s 0

/-- Go `strings.Split(s, sep)` for a one-character separator: the pieces between the
occurrences of `sep`; always at least one piece. -/
def Split (s : GoString) (sep : Char) : List GoString :=
  match s with
  | [] => [[]]
  | c :: cs =>
    if c = sep then [] :: Split cs sep
    else
      match Split cs sep with
      | [] => [[c]]
      | piece :: pieces => (c :: piece) :: pieces

/-- Go `strings.Trim(s, cutset)`: `s` without its leading and trailing characters that
belong to `cutset`. -/
def Trim (s cutset : GoString) : GoString :=
  ((s.dropWhile fun c => cutset.contains c).reverse.dropWhile fun c => cutset.contains c).reverse

end strings

/-! ## Errors -/

/-- Go `error` values met by the package, by dynamic type. -/
inductive GoError where
  /-- A value of the package's `ConversionError` string type. -/
  | conversionError (text : GoString)
  /-- The result of `fmt.Errorf` without `%w`. -/
  | errorString (msg : GoString)
  /-- The result of `fmt.Errorf` with `%w`: the formatted message and the wrapped error. -/
  | wrapError (msg : GoString) (inner : GoError)
  /-- An error of the standard library (transport, JSON, URL parsing). -/
  | library (msg : GoString)
  deriving DecidableEq

/-- The `Error()` method. -/
def GoError.Error : GoError → GoString
  | .conversionError text => text
  | .errorString msg => msg
  | .wrapError msg _ => msg
  | .library msg => msg

def InvalidSourceCurrency : GoError := .conversionError "invalid source currency".toList
def InvalidTargetCurrency : GoError := .conversionError "invalid target currency".toList
def InvalidConversionAmount : GoError := .conversionError "invalid conversion amount".toList

/-- Go `fmt.Errorf(prefix + "%w", err)`. -/
def errorfWrap (pre : GoString) (err : GoError) : GoError :=
  .wrapError (pre ++ err.Error) err

/-! ## Data model (`converter.go`) -/

abbrev Currency := GoString

/-- Go `json.Number`: the literal text of a number. -/
abbrev Number := GoString

structure Amount where
  Quantity : Number
  Currency : Currency
  deriving DecidableEq

def zeroAmount : Amount := ⟨[], []⟩

/-- What a call of `Converter.Convert` does: it returns `(Amount, error)` (`err = none` is
the nil error) or it panics. -/
inductive ConvertResult where
  | returned (amount : Amount) (err : Option GoError)
  | panicked (msg : GoString)
  deriving DecidableEq

/-- The interface `Converter`. -/
abbrev Converter := Amount → Currency → ConvertResult

structure apiLayerError where
  Code : GoString
  Message : GoString
  deriving DecidableEq

structure apiLayerErrorResponse where
  Error : apiLayerError
  deriving DecidableEq

structure conversionPayload where
  SourceCurrency : Currency
  SourceValue : Number
  TargetCurrency : Currency
  deriving DecidableEq

/-- A value of Go type `any` produced by a JSON decoder with `UseNumber`. -/
inductive JAny where
  | null
  | bool (b : Bool)
  | number (text : Number)
  | string (s : GoString)
  | array (items : List JAny)
  | object (fields : List (GoString × JAny))

/-- Name of the dynamic type, as the runtime prints it in a failed type assertion. -/
def JAny.typeName : JAny → GoString
  | .null => "nil".toList
  | .bool _ => "bool".toList
  | .number _ => "json.Number".toList
  | .string _ => "string".toList
  | .array _ => "[]interface \x7b\x7d".toList
  | .object _ => "map[string]interface \x7b\x7d".toList

/-- Go map indexing `m[key]` on a `map[string]any`: the nil interface when the key is
absent (or the map is nil, modelled as the empty list). -/
def mapIndex (m : List (GoString × JAny)) (key : GoString) : JAny :=
  match m with
  | [] => .null
  | (k, v) :: rest => if k = key then v else mapIndex rest key

/-- An `io.Reader` body: the bytes it yields and the error that ends it (`none` is EOF). -/
structure Body where
  data : GoString
  err : Option GoError
  deriving DecidableEq

/-- Go `io.ReadAll`. -/
def ReadAll (body : Body) : GoString × Option GoError := (body.data, body.err)

/-! ## `net/http` -/

/-- Go `map[string][]string`, the type under `http.Header` and `url.Values`. -/
abbrev Header := List (GoString × List GoString)

/-- Go map indexing `m[key]`: the nil slice when the key is absent. -/
def mapGet (m : Header) (key : GoString) : List GoString :=
  match m with
  | [] => []
  | (k, vs) :: rest => if k = key then vs else mapGet rest key

/-- Go map assignment `m[key] = values`. -/
def mapSet (m : Header) (key : GoString) (values : List GoString) : Header :=
  match m with
  | [] => [(key, values)]
  | (k, vs) :: rest => if k = key then (k, values) :: rest else (k, vs) :: mapSet rest key values

/-- Go `textproto`: the bytes allowed in a header field name. -/
def validHeaderFieldByte (c : Char) : Bool :=
  c.isAlphanum || "!#$%&*+-.^_|~".toList.contains c || c = Char.ofNat 39 || c = Char.ofNat 96

/-- The case-folding pass of `textproto.CanonicalMIMEHeaderKey`. -/
def canonicalFold : Bool → GoString → GoString
  | _, [] => []
  | upper, c :: cs =>
    let c := if upper ∧ c.isLower then c.toUpper else if ¬ upper ∧ c.isUpper then c.toLower else c
    c :: canonicalFold (c = '-') cs

/-- Go `textproto.CanonicalMIMEHeaderKey`: a key with a space or a byte that is not allowed
in a field name is returned unchanged. -/
def CanonicalMIMEHeaderKey (key : GoString) : GoString :=
  if key.all fun c => validHeaderFieldByte c then canonicalFold true key else key

/-- Go `Header.Values(key)`. -/
def Header.Values (h : Header) (key : GoString) : List GoString :=
  mapGet h (CanonicalMIMEHeaderKey key)

/-- Go `Header.Add(key, value)`. -/
def Header.Add (h : Header) (key value : GoString) : Header :=
  mapSet h (CanonicalMIMEHeaderKey key) (mapGet h (CanonicalMIMEHeaderKey key) ++ [value])

/-- Go `Header.Set(key, value)`. -/
def Header.Set (h : Header) (key value : GoString) : Header :=
  mapSet h (CanonicalMIMEHeaderKey key) [value]

/-- Go `url.Values.Add(key, value)`. -/
def Values.Add (v : Header) (key value : GoString) : Header :=
  mapSet v key (mapGet v key ++ [value])

structure URL where
  Scheme : GoString
  Host : GoString
  Path : GoString
  RawQuery : GoString
  deriving DecidableEq

/-- The outbound `*http.Request`. -/
structure HttpRequest where
  Method : GoString
  URL : URL
  Header : Header
  deriving DecidableEq

/-- The upstream `*http.Response`. -/
structure HttpResponse where
  StatusCode : Int
  Body : Body
  deriving DecidableEq

def StatusBadRequest : Int := 400
def StatusOK : Int := 200

/-- The inbound `*http.Request`. -/
structure Request where
  Method : GoString
  Header : Header
  Body : Body
  deriving DecidableEq

/-- An `http.ResponseWriter`: the response headers, the status once written, the body. -/
structure ResponseWriter where
  header : Header
  status : Option Int
  body : GoString
  deriving DecidableEq

/-- The writer the server hands to a handler. -/
def ResponseWriter.fresh : ResponseWriter := ⟨[], none, []⟩

/-- Go `response.WriteHeader(code)`: only the first call counts. -/
def ResponseWriter.WriteHeader (w : ResponseWriter) (code : Int) : ResponseWriter :=
  match w.status with
  | some _ => w
  | none => { w with status := some code }

/-- Go `response.Write(bytes)`: writes status 200 first when no status was written. -/
def ResponseWriter.Write (w : ResponseWriter) (bytes : GoString) : ResponseWriter :=
  let w := w.WriteHeader StatusOK
  { w with body := w.body ++ bytes }

/-! ## Standard library entry points, as parameters -/

structure Stdlib where
  /-- The call `newJsonDecoder(body).Decode(&payload)` on a `conversionPayload`. -/
  DecodePayload : Body → Except GoError conversionPayload
  /-- The call `newJsonDecoder(body).Decode(&result)` on a `map[string]any`. -/
  DecodeMap : Body → Except GoError (List (GoString × JAny))
  /-- The call `json.Unmarshal(bytes, &errorResponse)` on an `apiLayerErrorResponse`. -/
  Unmarshal : GoString → Except GoError apiLayerErrorResponse
  /-- The URL parsing of `http.NewRequest`. -/
  ParseURL : GoString → Except GoError URL
  /-- The table `strconv.IsPrint`. -/
  IsPrint : Char → Bool


/-! ## Package `fmt`, `strconv`, `net/url` -/

/-- The verb `%d` on an `int`. -/
def formatInt (n : Int) : GoString :=
  match n with
  | Int.ofNat m => Nat.toDigits 10 m
  | Int.negSucc m => '-' :: Nat.toDigits 10 (m + 1)

def lowerHex (n : Nat) : Char := "0123456789abcdef".toList.getD n '0'

def upperHex (n : Nat) : Char := "0123456789ABCDEF".toList.getD n '0'

/-- The escape that `strconv.Quote` writes for one rune of a valid UTF-8 string. -/
def appendEscapedRune (IsPrint : Char → Bool) (r : Char) : GoString :=
  if r = Char.ofNat 34 ∨ r = Char.ofNat 92 then [Char.ofNat 92, r]
  else if IsPrint r then [r]
  else if r = Char.ofNat 7 then [Char.ofNat 92, 'a']
  else if r = Char.ofNat 8 then [Char.ofNat 92, 'b']
  else if r = Char.ofNat 12 then [Char.ofNat 92, 'f']
  else if r = Char.ofNat 10 then [Char.ofNat 92, 'n']
  else if r = Char.ofNat 13 then [Char.ofNat 92, 'r']
  else if r = Char.ofNat 9 then [Char.ofNat 92, 't']
  else if r = Char.ofNat 11 then [Char.ofNat 92, 'v']
  else if r.toNat < 32 ∨ r.toNat = 127 then
    [Char.ofNat 92, 'x', lowerHex (r.toNat / 16), lowerHex (r.toNat % 16)]
  else if r.toNat < 65536 then
    [Char.ofNat 92, 'u', lowerHex (r.toNat / 4096 % 16), lowerHex (r.toNat / 256 % 16),
      lowerHex (r.toNat / 16 % 16), lowerHex (r.toNat % 16)]
  else
    [Char.ofNat 92, 'U', lowerHex (r.toNat / 268435456 % 16), lowerHex (r.toNat / 16777216 % 16),
      lowerHex (r.toNat / 1048576 % 16), lowerHex (r.toNat / 65536 % 16),
      lowerHex (r.toNat / 4096 % 16), lowerHex (r.toNat / 256 % 16),
      lowerHex (r.toNat / 16 % 16), lowerHex (r.toNat % 16)]

/-- The verb `%q` on a string: `strconv.Quote`. -/
def Quote (IsPrint : Char → Bool) (s : GoString) : GoString :=
  Char.ofNat 34 :: (s.flatMap (appendEscapedRune IsPrint) ++ [Char.ofNat 34])

/-- Go `url.QueryEscape` on one byte. -/
def escapeByte (b : Nat) : GoString :=
  let c := Char.ofNat b
  if c.isAlphanum ∨ c = '-' ∨ c = '_' ∨ c = '.' ∨ c = '~' then [c]
  else if c = ' ' then ['+']
  else ['%', upperHex (b / 16), upperHex (b % 16)]

/-- Go `url.QueryEscape`. -/
def QueryEscape (s : GoString) : GoString :=
  s.flatMap fun c => (String.utf8EncodeChar c).flatMap fun b => escapeByte b.toNat

/-- Byte-wise order of Go strings. -/
def stringLess : GoString → GoString → Bool
  | [], [] => false
  | [], _ :: _ => true
  | _ :: _, [] => false
  | a :: as, b :: bs => if a.toNat < b.toNat then true else if b.toNat < a.toNat then false else stringLess as bs

/-- Insertion of a key into a sorted list of keys. -/
def insertKey (k : GoString) : List GoString → List GoString
  | [] => [k]
  | x :: xs => if stringLess x k then x :: insertKey k xs else k :: x :: xs

/-- Go `url.Values.Encode()`: the pairs `key=value`, escaped, joined with `&`, by sorted key. -/
def Encode (v : Header) : GoString :=
  let keys := (v.map Prod.fst).foldr insertKey []
  let pairs := keys.flatMap fun k =>
    (mapGet v k).map fun value => QueryEscape k ++ '=' :: QueryEscape value
  List.intercalate ['&'] pairs

/-- Go `http.NewRequest(method, url, nil)` for a valid method. -/
def NewRequest (std : Stdlib) (method url : GoString) : Except GoError HttpRequest :=
  match std.ParseURL url with
  | .error err => .error err
  | .ok u => .ok { Method := method, URL := u, Header := [] }

/-! ## `converter.go` -/

structure apiLayerConverter where
  key : GoString
  uri : GoString
  /-- The call `converter.client.Do(request)`: the upstream's answer or a transport error. -/
  client : HttpRequest → Except GoError HttpResponse

/-- Go `NewConverter(baseUri, apiKey)`, over a given HTTP client. -/
def NewConverter (client : HttpRequest → Except GoError HttpResponse) (baseUri apiKey : GoString) :
    apiLayerConverter :=
  { key := apiKey, uri := baseUri ++ "/exchangerates_data/convert".toList, client := client }

def apiLayerConverter.newConversionRequest (std : Stdlib) (converter : apiLayerConverter)
    (amount : Amount) (targetCurrency : Currency) : Except GoError HttpRequest :=
  match NewRequest std "GET".toList converter.uri with
  | .error err => .error (errorfWrap "could not create conversion request: ".toList err)
  | .ok request =>
    let headers := request.Header
    let headers := Header.Set headers "Accept".toList "application/json".toList
    let headers := Header.Set headers "apikey".toList converter.key
    let queryString : Header := []
    let queryString := Values.Add queryString "from".toList amount.Currency
    let queryString := Values.Add queryString "amount".toList amount.Quantity
    let queryString := Values.Add queryString "to".toList targetCurrency
    .ok { request with Header := headers, URL := { request.URL with RawQuery := Encode queryString } }

def apiLayerConverter.extractBadRequestError (std : Stdlib) (response : HttpResponse) : GoError :=
  match ReadAll response.Body with
  | (_, some err) => errorfWrap "failed to read conversion response: ".toList err
  | (responseBody, none) =>
    match std.Unmarshal responseBody with
    | .error err => errorfWrap "failed to parse conversion error response: ".toList err
    | .ok errorResponse =>
      let errorCode := errorResponse.Error.Code
      if errorCode = "invalid_from_currency".toList then InvalidSourceCurrency
      else if errorCode = "invalid_to_currency".toList then InvalidTargetCurrency
      else if errorCode = "invalid_conversion_amount".toList then InvalidConversionAmount
      else .errorString ("error ".toList ++ Quote std.IsPrint errorCode ++ ": ".toList
        ++ errorResponse.Error.Message)

def apiLayerConverter.Convert (std : Stdlib) (converter : apiLayerConverter)
    (amount : Amount) (targetCurrency : Currency) : ConvertResult :=
  match converter.newConversionRequest std amount targetCurrency with
  | .error err => .returned zeroAmount (some err)
  | .ok request =>
    match converter.client request with
    | .error err => .returned zeroAmount (some (errorfWrap "failed to perform conversion: ".toList err))
    | .ok response =>
      let statusCode := response.StatusCode
      if statusCode = StatusBadRequest then
        .returned zeroAmount (some (apiLayerConverter.extractBadRequestError std response))
      else if statusCode ≠ StatusOK then
        let body := (ReadAll response.Body).1
        .returned zeroAmount (some (.errorString ("unexpected error (upstream status ".toList
          ++ formatInt statusCode ++ "): ".toList ++ body)))
      else
        match std.DecodeMap response.Body with
        | .error err =>
          .returned zeroAmount (some (errorfWrap "could not read conversion response: ".toList err))
        | .ok result =>
          let rawAmount := mapIndex result "result".toList
          match rawAmount with
          | .number quantity => .returned { Quantity := quantity, Currency := targetCurrency } none
          | other => .panicked ("interface conversion: interface \x7b\x7d is ".toList
              ++ other.typeName ++ ", not json.Number".toList)

/-! ## `controller.go` -/

structure currencyController where
  service : Converter

def NewController (service : Converter) : currencyController := { service := service }

/-- The calls a handler run makes that the specification speaks of, in order. -/
inductive Event where
  /-- The call `jsonDecoder.Decode(&payload)` on the request body. -/
  | decode (body : Body)
  /-- The call `controller.service.Convert(amount, targetCurrency)`. -/
  | convert (amount : Amount) (targetCurrency : Currency)
  deriving DecidableEq

/-- What a run of the handler leaves: the response written, the calls made, and the panic
that ended the run, if any. -/
structure Served where
  response : ResponseWriter
  events : List Event
  panic : Option GoString
  deriving DecidableEq

def sendBadRequest (response : ResponseWriter) (msg : GoString) : ResponseWriter :=
  let response := response.WriteHeader 400
  response.Write ("\x7b\"error\": \"".toList ++ msg ++ "\")".toList)

def sendServerError (response : ResponseWriter) (msg : GoString) : ResponseWriter :=
  let response := response.WriteHeader 500
  response.Write ("\x7b\"error\": \"".toList ++ msg ++ "\")".toList)

def handleError (response : ResponseWriter) (payload : conversionPayload) (err : GoError) :
    ResponseWriter :=
  let sourceCurrency := payload.SourceCurrency
  let targetCurrency := payload.TargetCurrency
  let amount := payload.SourceValue
  if err = InvalidSourceCurrency then
    sendBadRequest response ("invalid source currency ".toList ++ sourceCurrency)
  else if err = InvalidTargetCurrency then
    sendBadRequest response ("invalid target currency ".toList ++ targetCurrency)
  else if err = InvalidConversionAmount then
    sendBadRequest response ("invalid conversion amount ".toList ++ amount)
  else
    sendServerError response err.Error

def extractValues (rawValue : GoString) : List GoString :=
  (strings.Split rawValue ',').foldl (fun result value =>
    let value := strings.Trim value " ".toList
    let weightStart := strings.Index value ";".toList
    let value := if weightStart > -1 then value.take weightStart.toNat else value
    result ++ [value]) []

/-- The function `validateHeader`; `.error` is the panic. -/
def validateHeader (headers : Header) (header expectedValue : GoString) : Except GoString Bool :=
  let values := Header.Values headers header
  if values.length = 0 then .ok true
  else
    let slashIndex := strings.Index expectedValue "/".toList
    if slashIndex = -1 then .error ("invalid MIME type ".toList ++ expectedValue)
    else
      let okValues := [expectedValue, expectedValue.take slashIndex.toNat ++ "/*".toList, "*/*".toList]
      .ok (values.any fun rawValue =>
        (extractValues rawValue).any fun value =>
          okValues.any fun okValue => decide (value = okValue))

def currencyController.ServeHTTP (std : Stdlib) (controller : currencyController)
    (response : ResponseWriter) (request : Request) : Served :=
  let response := { response with
    header := Header.Add response.header "Content-Type".toList "application/json".toList }
  if request.Method ≠ "POST".toList then
    let response := response.WriteHeader 405
    ⟨response.Write "\x7b\"error\": \"only POST requests are supported\")".toList, [], none⟩
  else
    match validateHeader request.Header "Content-Type".toList "application/json".toList with
    | .error msg => ⟨response, [], some msg⟩
    | .ok false =>
      let response := response.WriteHeader 415
      ⟨response.Write "\x7b\"error\": \"only JSON requests are supported\")".toList, [], none⟩
    | .ok true =>
      match validateHeader request.Header "Accept".toList "application/json".toList with
      | .error msg => ⟨response, [], some msg⟩
      | .ok false =>
        let response := response.WriteHeader 406
        ⟨response.Write "\x7b\"error\": \"only JSON responses are supported\")".toList, [], none⟩
      | .ok true =>
        match std.DecodePayload request.Body with
        | .error err => ⟨sendBadRequest response err.Error, [.decode request.Body], none⟩
        | .ok payload =>
          let amount : Amount := { Quantity := payload.SourceValue, Currency := payload.SourceCurrency }
          let events := [Event.decode request.Body, Event.convert amount payload.TargetCurrency]
          match controller.service amount payload.TargetCurrency with
          | .panicked msg => ⟨response, events, some msg⟩
          | .returned _ (some err) => ⟨handleError response payload err, events, none⟩
          | .returned result none =>
            let response := response.WriteHeader 200
            ⟨response.Write ("\x7b\"currency\": \"".toList ++ result.Currency
              ++ "\", \"value\": ".toList ++ result.Quantity ++ "\x7d".toList), events, none⟩

/-! ## Sample standard library and inputs, for the worked examples -/

deriving instance DecidableEq for Except

/-- A sample table for `strconv.IsPrint`: the printable ASCII characters. -/
def asciiIsPrint (c : Char) : Bool := decide (32 ≤ c.toNat ∧ c.toNat < 127)


/-- The prefix `pre` removed from `s`, when `s` starts with it. -/
def stripPrefix (pre s : GoString) : Option GoString :=
  if pre.isPrefixOf s then some (s.drop pre.length) else none

/-- A sample `json.Unmarshal` into `apiLayerErrorResponse`, defined on the bodies that the
test server of `converter_test.go` sends: a code and a message without escapes. -/
def sampleUnmarshal (bytes : GoString) : Except GoError apiLayerErrorResponse :=
  match stripPrefix "\x7b\"error\": \x7b\"code\": \"".toList bytes with
  | none => .error (.library "invalid character looking for beginning of value".toList)
  | some rest =>
    let code := rest.takeWhile fun c => c != Char.ofNat 34
    match stripPrefix "\", \"message\": \"".toList (rest.drop code.length) with
    | none => .error (.library "unexpected end of JSON input".toList)
    | some rest =>
      let message := rest.takeWhile fun c => c != Char.ofNat 34
      if rest.drop message.length = "\"\x7d\x7d".toList then
        .ok { Error := { Code := code, Message := message } }
      else .error (.library "unexpected end of JSON input".toList)

/-- A sample standard library, defined on the texts of the worked examples. -/
def sampleStd : Stdlib where
  DecodePayload body :=
    if body = ⟨"\x7b\"sourceCurrency\":\"EUR\",\"sourceValue\":\"10\",\"targetCurrency\":\"USD\"\x7d".toList,
        none⟩ then
      .ok { SourceCurrency := "EUR".toList, SourceValue := "10".toList,
            TargetCurrency := "USD".toList }
    else .error (.library "unexpected end of JSON input".toList)
  DecodeMap body :=
    if body = ⟨"\x7b\"result\": 9.5\x7d".toList, none⟩ then
      .ok [("result".toList, JAny.number "9.5".toList)]
    else .error (.library "unexpected end of JSON input".toList)
  Unmarshal := sampleUnmarshal
  ParseURL url :=
    if url = "https://api.apilayer.com/exchangerates_data/convert".toList then
      .ok { Scheme := "https".toList, Host := "api.apilayer.com".toList,
            Path := "/exchangerates_data/convert".toList, RawQuery := [] }
    else .error (.library "parse: invalid URL".toList)
  IsPrint := asciiIsPrint

/-- The sample standard library, with `json.Unmarshal` also defined on the error body whose
code is `a"b` (written `a\"b` in the JSON text). -/
def quoteStd : Stdlib :=
  { sampleStd with
    Unmarshal := fun bytes =>
      if bytes = "\x7b\"error\": \x7b\"code\": \"a\\\"b\", \"message\": \"oopsie\"\x7d\x7d".toList then
        .ok { Error := { Code := "a\"b".toList, Message := "oopsie".toList } }
      else sampleUnmarshal bytes }

/-- A converter for `https://api.apilayer.com` whose upstream answers every request with
`response`. -/
def sampleConverter (response : HttpResponse) : apiLayerConverter :=
  NewConverter (fun _ => .ok response) "https://api.apilayer.com".toList "alan-key".toList

/-- The request that `sampleConverter` sends to convert 10 EUR to USD. -/
def sampleUpstreamRequest : HttpRequest :=
  { Method := "GET".toList,
    URL := { Scheme := "https".toList, Host := "api.apilayer.com".toList,
             Path := "/exchangerates_data/convert".toList,
             RawQuery := "amount=10&from=EUR&to=USD".toList },
    Header := [("Accept".toList, ["application/json".toList]),
               ("Apikey".toList, ["alan-key".toList])] }

/-- An inbound request with the sample payload as body. -/
def sampleRequest (method : GoString) (header : Header) : Request :=
  { Method := method, Header := header,
    Body := ⟨"\x7b\"sourceCurrency\":\"EUR\",\"sourceValue\":\"10\",\"targetCurrency\":\"USD\"\x7d".toList,
      none⟩ }

/-- The writer after the first statement of `ServeHTTP`: fresh, with the response header
`Content-Type: application/json`. -/
def jsonWriter : ResponseWriter :=
  { header := [("Content-Type".toList, ["application/json".toList])], status := none, body := [] }

/-! ## Specification-side notions -/

/-- The media range of one element of a header value, in the order of `extractValues`: the
surrounding spaces of the element are removed first, then the text from the first `;` on is
cut, so that a space left before the `;` is kept. -/
def mediaRange (element : GoString) : GoString :=
  (strings.Trim element " ".toList).takeWhile fun c => c != ';'

/-- The media range of one element as the specification words it: the element once its
`;`-delimited parameter and its surrounding spaces are removed, that is the text before the
first `;` without the spaces around it. -/
def claimedMediaRange (element : GoString) : GoString :=
  strings.Trim (element.takeWhile fun c => c != ';') " ".toList

/-- The sample standard library, with the JSON decoder also defined on the upstream body
`{"success": false}`, an object without a `result` entry. -/
def noResultStd : Stdlib :=
  { sampleStd with
    DecodeMap := fun body =>
      if body = ⟨"\x7b\"success\": false\x7d".toList, none⟩ then
        .ok [("success".toList, JAny.bool false)]
      else sampleStd.DecodeMap body }

/-- The bytes of a Go string: the UTF-8 encoding of its characters. -/
def utf8Bytes (s : GoString) : List Nat :=
  s.flatMap fun c => (String.utf8EncodeChar c).map fun b => b.toNat

/-- Value of a hexadecimal digit, as `net/url` reads it. -/
def unhex (c : Char) : Option Nat :=
  if '0'.toNat ≤ c.toNat ∧ c.toNat ≤ '9'.toNat then some (c.toNat - '0'.toNat)
  else if 'a'.toNat ≤ c.toNat ∧ c.toNat ≤ 'f'.toNat then some (c.toNat - 'a'.toNat + 10)
  else if 'A'.toNat ≤ c.toNat ∧ c.toNat ≤ 'F'.toNat then some (c.toNat - 'A'.toNat + 10)
  else none

/-- Go `url.QueryUnescape`, to bytes: `%XX` is the byte `XX`, `+` is a space, any other
character stands for itself; `none` is the error for a `%` without two hexadecimal digits. -/
def QueryUnescape : GoString → Option (List Nat)
  | [] => some []
  | c :: rest =>
    if c = '%' then
      match rest with
      | hi :: lo :: rest =>
        match unhex hi, unhex lo, QueryUnescape rest with
        | some a, some b, some bytes => some ((16 * a + b) :: bytes)
        | _, _, _ => none
      | _ => none
    else
      match QueryUnescape rest with
      | some bytes => some ((if c = '+' then 32 else c.toNat) :: bytes)
      | none => none

/-- One `key=value` piece of a query string, decoded: the piece is cut at its first `=`. -/
def parsePair (piece : GoString) : Option (List Nat × List Nat) :=
  if ';' ∈ piece then none
  else
    match QueryUnescape (piece.takeWhile fun c => c != '='),
        QueryUnescape ((piece.dropWhile fun c => c != '=').drop 1) with
    | some key, some value => some (key, value)
    | _, _ => none

/-- The loop of `url.ParseQuery` over the pieces of the query string: an empty piece is
skipped, the others are decoded in order. -/
def parsePairs : List GoString → Option (List (List Nat × List Nat))
  | [] => some []
  | piece :: rest =>
    if piece = [] then parsePairs rest
    else
      match parsePair piece, parsePairs rest with
      | some pair, some pairs => some (pair :: pairs)
      | _, _ => none

/-- Go `url.ParseQuery`, as the list of decoded `(key, value)` parameters in their order in
the query string, the pieces being those between `&`; `none` is the error. -/
def ParseQuery (query : GoString) : Option (List (List Nat × List Nat)) :=
  parsePairs (strings.Split query '&')

/-! ## Lemmas on the string functions -/

theorem indexFrom_single (c : Char) : ∀ (s : GoString) (i : Nat),
    strings.indexFrom [c] s i
      = if c ∈ s then (((i + (s.takeWhile fun x => x != c).length : Nat)) : Int) else -1 := by
  intro s
  induction s with
  | nil => intro i; simp [strings.indexFrom]
  | cons d ds ih =>
    intro i
    by_cases h : c = d
    · subst h; simp [strings.indexFrom, List.isPrefixOf]
    · have h2 : ¬ d = c := fun e => h e.symm
      simp [strings.indexFrom, List.isPrefixOf, h, h2, ih]
      split
      · omega
      · rfl

theorem Index_single (c : Char) (s : GoString) :
    strings.Index s [c]
      = if c ∈ s then (((s.takeWhile fun x => x != c).length : Nat) : Int) else -1 := by
  simp [strings.Index, indexFrom_single]

theorem foldl_append_singleton {α β : Type} (f : α → β) :
    ∀ (l : List α) (acc : List β),
      l.foldl (fun result value => result ++ [f value]) acc = acc ++ l.map f := by
  intro l
  induction l with
  | nil => intro acc; simp
  | cons a l ih => intro acc; simp [ih]

theorem take_index_eq_takeWhile (c : Char) (v : GoString) :
    (if strings.Index v [c] > -1 then v.take (strings.Index v [c]).toNat else v)
      = v.takeWhile fun x => x != c := by
  rw [Index_single]
  by_cases h : c ∈ v
  · simp only [h, if_true]
    have : ((((v.takeWhile fun x => x != c).length : Nat) : Int) > -1) := by omega
    simp only [this, if_true, Int.toNat_ofNat]
    exact (List.prefix_iff_eq_take.mp (List.takeWhile_prefix _)).symm
  · simp only [h, if_false]
    have : ¬ ((-1 : Int) > -1) := by omega
    simp only [this, if_false]
    symm
    rw [List.takeWhile_eq_self_iff]
    intro x hx
    simp only [bne_iff_ne, ne_eq]
    intro e
    exact h (e ▸ hx)

theorem extractValues_eq_map (rawValue : GoString) :
    extractValues rawValue = (strings.Split rawValue ',').map mediaRange := by
  unfold extractValues
  have key : (fun (result : List GoString) (value : GoString) =>
      let value := strings.Trim value " ".toList
      let weightStart := strings.Index value ";".toList
      let value := if weightStart > -1 then value.take weightStart.toNat else value
      result ++ [value]) = fun result value => result ++ [mediaRange value] := by
    funext result value
    have := take_index_eq_takeWhile ';' (strings.Trim value " ".toList)
    simp only [mediaRange]
    exact congrArg (fun x => result ++ [x]) this
  rw [key, foldl_append_singleton]
  simp

theorem Index_slash (t s : GoString) (ht : '/' ∉ t) :
    strings.Index (t ++ '/' :: s) "/".toList = (t.length : Int) := by
  have e : "/".toList = ['/'] := rfl
  rw [e, Index_single]
  have hmem : '/' ∈ t ++ '/' :: s := by simp
  simp only [hmem, if_true]
  congr 1
  have : ∀ x ∈ t, (x != '/') = true := by
    intro x hx
    simp only [bne_iff_ne, ne_eq]
    intro e2
    exact ht (e2 ▸ hx)
  rw [List.takeWhile_append_of_pos this]
  simp


theorem validateHeader_present (headers : Header) (h t s : GoString) (ht : '/' ∉ t)
    (hv : Header.Values headers h ≠ []) :
    validateHeader headers h (t ++ "/".toList ++ s)
      = .ok ((Header.Values headers h).any fun rawValue =>
          ((strings.Split rawValue ',').map mediaRange).any fun value =>
            [t ++ "/".toList ++ s, t ++ "/*".toList, "*/*".toList].any fun okValue =>
              decide (value = okValue)) := by
  have e : t ++ "/".toList ++ s = t ++ '/' :: s := by
    show t ++ ['/'] ++ s = t ++ '/' :: s
    simp
  have hlen : ¬ (Header.Values headers h).length = 0 := by
    intro h0
    exact hv (List.length_eq_zero.mp h0)
  have hne : ¬ ((t.length : Int) = -1) := by omega
  have htake : List.take t.length (t ++ '/' :: s) = t := by simp
  unfold validateHeader
  simp only [e, Index_slash t s ht, hlen, hne, if_false, Int.toNat_ofNat, htake,
    extractValues_eq_map]


/-- C6 (as stated, refuted): the header `Accept: application/json ;q=0.9` has values and its
one element, once its `;` parameter and its surrounding spaces are removed, is
`application/json`, yet `validateHeader` returns false against `application/json`: the code
removes the spaces around the element before it cuts the parameter, and the space before
the `;` stays. -/
theorem validateHeader_iff_counterexample :
    '/' ∉ "application".toList ∧
    validateHeader [("Accept".toList, ["application/json ;q=0.9".toList])] "Accept".toList
        ("application".toList ++ "/".toList ++ "json".toList) = .ok false ∧
    (∃ occurrence ∈ Header.Values [("Accept".toList, ["application/json ;q=0.9".toList])]
          "Accept".toList,
      ∃ element ∈ strings.Split occurrence ',',
        claimedMediaRange element = "application".toList ++ "/".toList ++ "json".toList) ∧
    ¬ ((false = true) ↔
      (Header.Values [("Accept".toList, ["application/json ;q=0.9".toList])] "Accept".toList = [] ∨
        ∃ occurrence ∈ Header.Values [("Accept".toList, ["application/json ;q=0.9".toList])]
            "Accept".toList,
          ∃ element ∈ strings.Split occurrence ',',
            claimedMediaRange element = "application".toList ++ "/".toList ++ "json".toList
              ∨ claimedMediaRange element = "application".toList ++ "/*".toList
              ∨ claimedMediaRange element = "*/*".toList)) := by
  decide

/-- C6 (amended): against an expected MIME type `t/s`, `validateHeader` returns (it does not
abort), and it returns true exactly when the header has no values at all, or some element of
some occurrence of the header, split on `,`, equals `t/s`, `t/*` or `*/*` once its
surrounding spaces are removed and then the text from its first `;` on is cut (a space
left before the `;` is kept).  Against `application/json`, the values
`application/*;q=0.9` and `text/html, application/json` are accepted and `text/plain` is
rejected. -/
theorem validateHeader_iff (headers : Header) (h t s : GoString) (ht : '/' ∉ t) :
    (∃ b, validateHeader headers h (t ++ "/".toList ++ s) = .ok b ∧
      (b = true ↔
        (Header.Values headers h = [] ∨
          ∃ occurrence ∈ Header.Values headers h, ∃ element ∈ strings.Split occurrence ',',
            mediaRange element = t ++ "/".toList ++ s ∨ mediaRange element = t ++ "/*".toList
              ∨ mediaRange element = "*/*".toList))) ∧
    (Header.Values headers h = ["application/*;q=0.9".toList] →
      validateHeader headers h "application/json".toList = .ok true) ∧
    (Header.Values headers h = ["text/html, application/json".toList] →
      validateHeader headers h "application/json".toList = .ok true) ∧
    (Header.Values headers h = ["text/plain".toList] →
      validateHeader headers h "application/json".toList = .ok false) := by
  refine ⟨?_, ?_, ?_, ?_⟩
  · by_cases hv : Header.Values headers h = []
    · refine ⟨true, ?_, ?_⟩
      · unfold validateHeader
        simp [hv]
      · simp [hv]
    · refine ⟨_, validateHeader_present headers h t s ht hv, ?_⟩
      simp only [List.any_eq_true, List.mem_map, decide_eq_true_eq, hv, false_or]
      constructor
      · rintro ⟨occurrence, hocc, value, ⟨element, hel, rfl⟩, okValue, hok, heq⟩
        refine ⟨occurrence, hocc, element, hel, ?_⟩
        simp only [List.mem_cons, List.mem_singleton, List.not_mem_nil, or_false] at hok
        rcases hok with rfl | rfl | rfl
        · exact Or.inl heq
        · exact Or.inr (Or.inl heq)
        · exact Or.inr (Or.inr heq)
      · rintro ⟨occurrence, hocc, element, hel, hm⟩
        refine ⟨occurrence, hocc, mediaRange element, ⟨element, hel, rfl⟩, ?_⟩
        rcases hm with hm | hm | hm
        · exact ⟨_, by simp, hm⟩
        · exact ⟨_, by simp, hm⟩
        · exact ⟨_, by simp, hm⟩
  · intro hv
    unfold validateHeader
    rw [hv]
    decide
  · intro hv
    unfold validateHeader
    rw [hv]
    decide
  · intro hv
    unfold validateHeader
    rw [hv]
    decide

/-- Witness of C6 (amended): the header `Accept: text/html, application/json` against `application/json`. -/
theorem validateHeader_iff_witness :
    '/' ∉ "application".toList ∧
    ((∃ b, validateHeader [("Accept".toList, ["text/html, application/json".toList])]
        "Accept".toList ("application".toList ++ "/".toList ++ "json".toList) = .ok b ∧
      (b = true ↔
        (Header.Values [("Accept".toList, ["text/html, application/json".toList])] "Accept".toList = [] ∨
          ∃ occurrence ∈ Header.Values [("Accept".toList, ["text/html, application/json".toList])]
              "Accept".toList,
            ∃ element ∈ strings.Split occurrence ',',
              mediaRange element = "application".toList ++ "/".toList ++ "json".toList
                ∨ mediaRange element = "application".toList ++ "/*".toList
                ∨ mediaRange element = "*/*".toList)))) :=
  ⟨by decide,
    (validateHeader_iff [("Accept".toList, ["text/html, application/json".toList])]
      "Accept".toList "application".toList "json".toList (by decide)).1⟩


theorem dropWhile_append_stop {q : Char → Bool} {a : Char} (ha : q a = false) (p : GoString) :
    ∀ v : GoString, (v ++ a :: p).dropWhile q = v.dropWhile q ++ a :: p := by
  intro v
  induction v with
  | nil => simp [List.dropWhile, ha]
  | cons c v ih =>
    by_cases hc : q c = true
    · simp [List.dropWhile, hc, ih]
    · simp [List.dropWhile, hc]

theorem Trim_append_stop (cutset : GoString) (a : Char) (ha : cutset.contains a = false)
    (v p : GoString) :
    strings.Trim (v ++ a :: p) cutset
      = (v.dropWhile fun c => cutset.contains c) ++ a ::
          ((p.reverse.dropWhile fun c => cutset.contains c).reverse) := by
  unfold strings.Trim
  rw [dropWhile_append_stop ha]
  have e : ((v.dropWhile fun c => cutset.contains c) ++ a :: p).reverse
      = p.reverse ++ a :: (v.dropWhile fun c => cutset.contains c).reverse := by
    simp
  rw [e, dropWhile_append_stop ha]
  simp only [List.reverse_append, List.reverse_cons, List.reverse_reverse, List.append_assoc,
    List.singleton_append]

theorem getLast?_dropWhile (q : Char → Bool) :
    ∀ v : GoString, (v.dropWhile q).getLast? = none ∨ (v.dropWhile q).getLast? = v.getLast? := by
  intro v
  induction v with
  | nil => simp
  | cons c v ih =>
    by_cases hc : q c = true
    · rw [List.dropWhile_cons_of_pos hc]
      rcases ih with h | h
      · exact Or.inl h
      · cases v with
        | nil => simp
        | cons d v => right; rw [h]; simp [List.getLast?_cons_cons]
    · right
      rw [List.dropWhile_cons_of_neg hc]

theorem dropWhile_space_of_head (l : GoString) (hl : l.head? ≠ some ' ') :
    (l.dropWhile fun c => " ".toList.contains c) = l := by
  cases l with
  | nil => rfl
  | cons c l =>
    have hc : c ≠ ' ' := by
      intro e
      exact hl (by simp [e])
    have : (" ".toList.contains c) = false := by
      show ([' '].contains c) = false
      simp [hc]
    exact List.dropWhile_cons_of_neg (by rw [this]; decide)

theorem Trim_of_no_trailing_space (v : GoString) (hv : v.getLast? ≠ some ' ') :
    strings.Trim v " ".toList = v.dropWhile fun c => " ".toList.contains c := by
  unfold strings.Trim
  have hh : ((v.dropWhile fun c => " ".toList.contains c).reverse).head? ≠ some ' ' := by
    rw [List.head?_reverse]
    rcases getLast?_dropWhile (fun c => " ".toList.contains c) v with h | h
    · rw [h]; simp
    · rw [h]; exact hv
  rw [dropWhile_space_of_head _ hh]
  simp

theorem mediaRange_with_parameter (v p : GoString) (hsemi : ';' ∉ v)
    (hlast : v.getLast? ≠ some ' ') :
    mediaRange (v ++ ";".toList ++ p) = mediaRange v := by
  have e : v ++ ";".toList ++ p = v ++ ';' :: p := by
    show v ++ [';'] ++ p = v ++ ';' :: p
    simp
  have hstop : (" ".toList.contains ';') = false := by decide
  have hnot : ∀ x ∈ (v.dropWhile fun c => " ".toList.contains c), (x != ';') = true := by
    intro x hx
    simp only [bne_iff_ne, ne_eq]
    intro e2
    exact hsemi (e2 ▸ (List.dropWhile_suffix _).subset hx)
  unfold mediaRange
  rw [e, Trim_append_stop _ _ hstop, Trim_of_no_trailing_space v hlast,
    List.takeWhile_append_of_pos hnot]
  have h1 : List.takeWhile (fun c => c != ';')
      (';' :: ((p.reverse.dropWhile fun c => " ".toList.contains c).reverse)) = [] := by
    simp [List.takeWhile]
  rw [h1, List.append_nil]
  symm
  rw [List.takeWhile_eq_self_iff]
  exact hnot

theorem Split_of_not_mem (sep : Char) : ∀ s : GoString, sep ∉ s → strings.Split s sep = [s] := by
  intro s
  induction s with
  | nil => intro _; rfl
  | cons c s ih =>
    intro h
    have hc : ¬ c = sep := by
      intro e
      exact h (by simp [e])
    have hs : sep ∉ s := by
      intro hm
      exact h (List.mem_cons_of_mem _ hm)
    simp [strings.Split, hc, ih hs]


theorem extractValues_with_parameter (v p : GoString) (hcomma : ',' ∉ v) (hsemi : ';' ∉ v)
    (hlast : v.getLast? ≠ some ' ') (hp : ',' ∉ p) :
    extractValues (v ++ ";".toList ++ p) = extractValues v := by
  have hall : ',' ∉ v ++ ";".toList ++ p := by
    intro hm
    rcases List.mem_append.mp hm with h1 | h1
    · rcases List.mem_append.mp h1 with h2 | h2
      · exact hcomma h2
      · revert h2; decide
    · exact hp h1
  rw [extractValues_eq_map, extractValues_eq_map, Split_of_not_mem _ _ hall,
    Split_of_not_mem _ _ hcomma]
  simp only [List.map_cons, List.map_nil, mediaRange_with_parameter v p hsemi hlast]

/-- C10 (as stated, refuted): with `v` the text `application/json ` (one trailing space),
which holds neither `,` nor `;`, and `p` the text `q=0.9`, the header value `v;p` is rejected
against `application/json` while the header value `v` is accepted. -/
theorem validateHeader_parameter_counterexample :
    ',' ∉ "application/json ".toList ∧ ';' ∉ "application/json ".toList ∧ ',' ∉ "q=0.9".toList ∧
    validateHeader [("Accept".toList, ["application/json ".toList ++ ";".toList ++ "q=0.9".toList])]
      "Accept".toList "application/json".toList = .ok false ∧
    validateHeader [("Accept".toList, ["application/json ".toList])]
      "Accept".toList "application/json".toList = .ok true := by
  decide

/-- C10 (amended): for every media-type text `v` that holds neither `,` nor `;` and does not
end with a space, and every parameter text `p` without `,`, `validateHeader` on a header
whose single value is `v;p` gives the result it gives on a header whose single value is `v`,
for every header name and expected value. -/
theorem validateHeader_ignores_parameter (headers headers' : Header)
    (h expectedValue v p : GoString)
    (hcomma : ',' ∉ v) (hsemi : ';' ∉ v) (hlast : v.getLast? ≠ some ' ') (hp : ',' ∉ p)
    (hwith : Header.Values headers h = [v ++ ";".toList ++ p])
    (hwithout : Header.Values headers' h = [v]) :
    validateHeader headers h expectedValue = validateHeader headers' h expectedValue := by
  unfold validateHeader
  simp only [hwith, hwithout, List.length_singleton, List.any_cons, List.any_nil,
    extractValues_with_parameter v p hcomma hsemi hlast hp]

/-- Witness of C10 (amended): `application/*` with the parameter `q=0.9`. -/
theorem validateHeader_ignores_parameter_witness :
    ',' ∉ "application/*".toList ∧ ';' ∉ "application/*".toList ∧
    "application/*".toList.getLast? ≠ some ' ' ∧ ',' ∉ "q=0.9".toList ∧
    validateHeader [("Accept".toList, ["application/*".toList ++ ";".toList ++ "q=0.9".toList])]
        "Accept".toList "application/json".toList
      = validateHeader [("Accept".toList, ["application/*".toList])]
        "Accept".toList "application/json".toList :=
  ⟨by decide, by decide, by decide, by decide,
    validateHeader_ignores_parameter _ _ "Accept".toList "application/json".toList
      "application/*".toList "q=0.9".toList (by decide) (by decide) (by decide) (by decide)
      (by decide) (by decide)⟩


/-! ## The conversion client -/

/-- C2: when the request is built and the upstream answers it with status 200 and a body
that the JSON decoder turns into a map whose `result` entry is the number `quantity`
(a `json.Number`, the literal text of the number in the body), `Convert` returns the nil
error and the amount with that text as quantity and the target currency passed in. -/
theorem Convert_ok (std : Stdlib) (converter : apiLayerConverter) (amount : Amount)
    (targetCurrency : Currency) (request : HttpRequest) (response : HttpResponse)
    (result : List (GoString × JAny)) (quantity : Number)
    (hrequest : converter.newConversionRequest std amount targetCurrency = .ok request)
    (hdo : converter.client request = .ok response)
    (hstatus : response.StatusCode = 200)
    (hdecode : std.DecodeMap response.Body = .ok result)
    (hresult : mapIndex result "result".toList = JAny.number quantity) :
    converter.Convert std amount targetCurrency
      = .returned { Quantity := quantity, Currency := targetCurrency } none := by
  unfold apiLayerConverter.Convert
  simp only [hrequest, hdo, hstatus, hdecode, hresult, StatusBadRequest, StatusOK]
  rfl

/-- Witness of C2: 10 EUR to USD against an upstream answering `{"result": 9.5}`. -/
theorem Convert_ok_witness :
    (sampleConverter ⟨200, ⟨"\x7b\"result\": 9.5\x7d".toList, none⟩⟩).newConversionRequest sampleStd
        ⟨"10".toList, "EUR".toList⟩ "USD".toList = .ok sampleUpstreamRequest ∧
    (sampleConverter ⟨200, ⟨"\x7b\"result\": 9.5\x7d".toList, none⟩⟩).Convert sampleStd
        ⟨"10".toList, "EUR".toList⟩ "USD".toList
      = .returned { Quantity := "9.5".toList, Currency := "USD".toList } none :=
  ⟨by decide,
    Convert_ok sampleStd (sampleConverter ⟨200, ⟨"\x7b\"result\": 9.5\x7d".toList, none⟩⟩)
      ⟨"10".toList, "EUR".toList⟩ "USD".toList sampleUpstreamRequest
      ⟨200, ⟨"\x7b\"result\": 9.5\x7d".toList, none⟩⟩
      [("result".toList, JAny.number "9.5".toList)] "9.5".toList
      (by decide) (by decide) (by decide) (by rfl) (by rfl)⟩


/-- C3: when the upstream answers with status 400 and a body that is read whole and that
`json.Unmarshal` turns into an error response with code `code` and message `message`,
`Convert` returns `InvalidSourceCurrency` for the code `invalid_from_currency`,
`InvalidTargetCurrency` for `invalid_to_currency` and `InvalidConversionAmount` for
`invalid_conversion_amount`, whatever the message, the amount and the currencies. -/
theorem Convert_badRequest_known (std : Stdlib) (converter : apiLayerConverter) (amount : Amount)
    (targetCurrency : Currency) (request : HttpRequest) (response : HttpResponse)
    (code message : GoString)
    (hrequest : converter.newConversionRequest std amount targetCurrency = .ok request)
    (hdo : converter.client request = .ok response)
    (hstatus : response.StatusCode = 400)
    (hread : response.Body.err = none)
    (hdecode : std.Unmarshal response.Body.data = .ok { Error := { Code := code, Message := message } }) :
    (code = "invalid_from_currency".toList →
      converter.Convert std amount targetCurrency = .returned zeroAmount (some InvalidSourceCurrency)) ∧
    (code = "invalid_to_currency".toList →
      converter.Convert std amount targetCurrency = .returned zeroAmount (some InvalidTargetCurrency)) ∧
    (code = "invalid_conversion_amount".toList →
      converter.Convert std amount targetCurrency
        = .returned zeroAmount (some InvalidConversionAmount)) := by
  have hconv : converter.Convert std amount targetCurrency
      = .returned zeroAmount (some (apiLayerConverter.extractBadRequestError std response)) := by
    unfold apiLayerConverter.Convert
    simp only [hrequest, hdo, hstatus, StatusBadRequest, if_true]
  have hext : apiLayerConverter.extractBadRequestError std response
      = if code = "invalid_from_currency".toList then InvalidSourceCurrency
        else if code = "invalid_to_currency".toList then InvalidTargetCurrency
        else if code = "invalid_conversion_amount".toList then InvalidConversionAmount
        else .errorString ("error ".toList ++ Quote std.IsPrint code ++ ": ".toList ++ message) := by
    unfold apiLayerConverter.extractBadRequestError ReadAll
    simp only [hread, hdecode]
  rw [hconv, hext]
  refine ⟨?_, ?_, ?_⟩
  · intro h; subst h; rfl
  · intro h; subst h; rfl
  · intro h; subst h; rfl

/-- Witness of C3: the test server's body with the code `invalid_to_currency`. -/
theorem Convert_badRequest_known_witness :
    sampleStd.Unmarshal
        "\x7b\"error\": \x7b\"code\": \"invalid_to_currency\", \"message\": \"oopsie\"\x7d\x7d".toList
      = .ok { Error := { Code := "invalid_to_currency".toList, Message := "oopsie".toList } } ∧
    (sampleConverter ⟨400, ⟨"\x7b\"error\": \x7b\"code\": \"invalid_to_currency\", \"message\": \"oopsie\"\x7d\x7d".toList,
        none⟩⟩).Convert sampleStd ⟨"10".toList, "EUR".toList⟩ "USD".toList
      = .returned zeroAmount (some InvalidTargetCurrency) :=
  ⟨by decide,
    (Convert_badRequest_known sampleStd
      (sampleConverter ⟨400, ⟨"\x7b\"error\": \x7b\"code\": \"invalid_to_currency\", \"message\": \"oopsie\"\x7d\x7d".toList,
        none⟩⟩)
      ⟨"10".toList, "EUR".toList⟩ "USD".toList sampleUpstreamRequest
      ⟨400, ⟨"\x7b\"error\": \x7b\"code\": \"invalid_to_currency\", \"message\": \"oopsie\"\x7d\x7d".toList, none⟩⟩
      "invalid_to_currency".toList "oopsie".toList
      (by decide) (by decide) (by decide) (by decide) (by decide)).2.1 rfl⟩

theorem Quote_of_plain (IsPrint : Char → Bool) :
    ∀ s : GoString, (∀ c ∈ s, IsPrint c = true ∧ c ≠ Char.ofNat 34 ∧ c ≠ Char.ofNat 92) →
      Quote IsPrint s = Char.ofNat 34 :: (s ++ [Char.ofNat 34]) := by
  intro s hs
  have key : ∀ t : GoString, (∀ c ∈ t, IsPrint c = true ∧ c ≠ Char.ofNat 34 ∧ c ≠ Char.ofNat 92) →
      t.flatMap (appendEscapedRune IsPrint) = t := by
    intro t
    induction t with
    | nil => intro _; rfl
    | cons c t ih =>
      intro ht
      have hc := ht c (List.mem_cons_self _ _)
      have hrest := ih fun d hd => ht d (List.mem_cons_of_mem _ hd)
      have hone : appendEscapedRune IsPrint c = [c] := by
        unfold appendEscapedRune
        simp [hc.1, hc.2.1, hc.2.2]
      simp [List.flatMap_cons, hone, hrest]
  unfold Quote
  rw [key s hs]

/-- C4 (as stated, refuted): an upstream 400 whose error body carries the code `a"b` and the
message `oopsie` makes `Convert` return an error whose message is `error "a\"b": oopsie`,
with a backslash before the inner quote, not the code unchanged between two quotes. -/
theorem Convert_badRequest_other_counterexample :
    quoteStd.Unmarshal
        "\x7b\"error\": \x7b\"code\": \"a\\\"b\", \"message\": \"oopsie\"\x7d\x7d".toList
      = .ok { Error := { Code := "a\"b".toList, Message := "oopsie".toList } } ∧
    (sampleConverter ⟨400, ⟨"\x7b\"error\": \x7b\"code\": \"a\\\"b\", \"message\": \"oopsie\"\x7d\x7d".toList,
        none⟩⟩).Convert quoteStd ⟨"10".toList, "EUR".toList⟩ "USD".toList
      = .returned zeroAmount (some (.errorString "error \"a\\\"b\": oopsie".toList)) ∧
    GoError.Error (.errorString "error \"a\\\"b\": oopsie".toList)
      ≠ "error \"".toList ++ "a\"b".toList ++ "\": ".toList ++ "oopsie".toList := by
  decide

/-- C4 (amended): when the upstream answers with status 400 and an error body with a code
that is none of the three known codes, `Convert` returns an error that is none of the three
`ConversionError` constants and whose message is `error `, the code as `%q` quotes it, a
colon, a space and the message unchanged; when every character of the code is printable
and is neither a double quote nor a backslash, that is the code unchanged between two
double quotes. -/
theorem Convert_badRequest_other (std : Stdlib) (converter : apiLayerConverter) (amount : Amount)
    (targetCurrency : Currency) (request : HttpRequest) (response : HttpResponse)
    (code message : GoString)
    (hrequest : converter.newConversionRequest std amount targetCurrency = .ok request)
    (hdo : converter.client request = .ok response)
    (hstatus : response.StatusCode = 400)
    (hread : response.Body.err = none)
    (hdecode : std.Unmarshal response.Body.data = .ok { Error := { Code := code, Message := message } })
    (hsource : code ≠ "invalid_from_currency".toList)
    (htarget : code ≠ "invalid_to_currency".toList)
    (hamount : code ≠ "invalid_conversion_amount".toList) :
    ∃ err, converter.Convert std amount targetCurrency = .returned zeroAmount (some err) ∧
      err ≠ InvalidSourceCurrency ∧ err ≠ InvalidTargetCurrency ∧ err ≠ InvalidConversionAmount ∧
      err.Error = "error ".toList ++ Quote std.IsPrint code ++ ": ".toList ++ message ∧
      ((∀ c ∈ code, std.IsPrint c = true ∧ c ≠ Char.ofNat 34 ∧ c ≠ Char.ofNat 92) →
        err.Error = "error \"".toList ++ code ++ "\": ".toList ++ message) := by
  refine ⟨.errorString ("error ".toList ++ Quote std.IsPrint code ++ ": ".toList ++ message),
    ?_, ?_, ?_, ?_, rfl, ?_⟩
  · unfold apiLayerConverter.Convert
    simp only [hrequest, hdo, hstatus, StatusBadRequest, if_true]
    unfold apiLayerConverter.extractBadRequestError ReadAll
    simp only [hread, hdecode, hsource, htarget, hamount, if_false]
  · intro h; cases h
  · intro h; cases h
  · intro h; cases h
  · intro hplain
    rw [Quote_of_plain _ _ hplain]
    show "error ".toList ++ Char.ofNat 34 :: (code ++ [Char.ofNat 34]) ++ ": ".toList ++ message
      = "error \"".toList ++ code ++ "\": ".toList ++ message
    have e1 : "error \"".toList = "error ".toList ++ [Char.ofNat 34] := by decide
    have e2 : "\": ".toList = Char.ofNat 34 :: ": ".toList := by decide
    rw [e1, e2]
    simp

/-- Witness of C4 (amended): the test server's body with the code `something_else`. -/
theorem Convert_badRequest_other_witness :
    sampleStd.Unmarshal
        "\x7b\"error\": \x7b\"code\": \"something_else\", \"message\": \"oopsie\"\x7d\x7d".toList
      = .ok { Error := { Code := "something_else".toList, Message := "oopsie".toList } } ∧
    ∃ err, (sampleConverter ⟨400, ⟨"\x7b\"error\": \x7b\"code\": \"something_else\", \"message\": \"oopsie\"\x7d\x7d".toList,
        none⟩⟩).Convert sampleStd ⟨"10".toList, "EUR".toList⟩ "USD".toList
        = .returned zeroAmount (some err) ∧
      err.Error = "error \"something_else\": oopsie".toList := by
  refine ⟨by decide, ?_⟩
  obtain ⟨err, h1, _, _, _, _, h2⟩ := Convert_badRequest_other sampleStd
    (sampleConverter ⟨400, ⟨"\x7b\"error\": \x7b\"code\": \"something_else\", \"message\": \"oopsie\"\x7d\x7d".toList,
      none⟩⟩)
    ⟨"10".toList, "EUR".toList⟩ "USD".toList sampleUpstreamRequest
    ⟨400, ⟨"\x7b\"error\": \x7b\"code\": \"something_else\", \"message\": \"oopsie\"\x7d\x7d".toList, none⟩⟩
    "something_else".toList "oopsie".toList
    (by decide) (by decide) (by decide) (by decide) (by decide) (by decide) (by decide) (by decide)
  exact ⟨err, h1, h2 (by decide)⟩

/-- C5: when the upstream answers with a status that is neither 200 nor 400, `Convert`
returns an error whose message is `unexpected error (upstream status S): B`, with `S` the
status as `%d` writes it and `B` the bytes read from the body as they are; the error is
none of the three `ConversionError` constants. -/
theorem Convert_unexpected_status (std : Stdlib) (converter : apiLayerConverter) (amount : Amount)
    (targetCurrency : Currency) (request : HttpRequest) (response : HttpResponse)
    (hrequest : converter.newConversionRequest std amount targetCurrency = .ok request)
    (hdo : converter.client request = .ok response)
    (hnotOK : response.StatusCode ≠ 200)
    (hnotBad : response.StatusCode ≠ 400) :
    ∃ err, converter.Convert std amount targetCurrency = .returned zeroAmount (some err) ∧
      err.Error = "unexpected error (upstream status ".toList ++ formatInt response.StatusCode
        ++ "): ".toList ++ response.Body.data ∧
      err ≠ InvalidSourceCurrency ∧ err ≠ InvalidTargetCurrency ∧ err ≠ InvalidConversionAmount := by
  refine ⟨.errorString ("unexpected error (upstream status ".toList
    ++ formatInt response.StatusCode ++ "): ".toList ++ response.Body.data), ?_, rfl, ?_, ?_, ?_⟩
  · unfold apiLayerConverter.Convert
    simp only [hrequest, hdo, StatusBadRequest, StatusOK, hnotOK, hnotBad, if_false, ne_eq,
      not_false_eq_true, if_true, ReadAll]
  · intro h; cases h
  · intro h; cases h
  · intro h; cases h

/-- Witness of C5: the test's upstream, status 500 with the body `nope`. -/
theorem Convert_unexpected_status_witness :
    (500 : Int) ≠ 200 ∧ (500 : Int) ≠ 400 ∧
    ∃ err, (sampleConverter ⟨500, ⟨"nope".toList, none⟩⟩).Convert sampleStd
        ⟨"10".toList, "EUR".toList⟩ "USD".toList = .returned zeroAmount (some err) ∧
      err.Error = "unexpected error (upstream status 500): nope".toList := by
  refine ⟨by decide, by decide, ?_⟩
  obtain ⟨err, h1, h2, _⟩ := Convert_unexpected_status sampleStd
    (sampleConverter ⟨500, ⟨"nope".toList, none⟩⟩) ⟨"10".toList, "EUR".toList⟩ "USD".toList
    sampleUpstreamRequest ⟨500, ⟨"nope".toList, none⟩⟩ (by decide) (by decide) (by decide)
    (by decide)
  exact ⟨err, h1, h2.trans (by decide)⟩


/-! ## The request handler -/

theorem fresh_header_add :
    ({ ResponseWriter.fresh with
        header := Header.Add ResponseWriter.fresh.header "Content-Type".toList
          "application/json".toList } : ResponseWriter) = jsonWriter := by
  decide

/-- C1: for a POST request that passes the Content-Type and Accept checks and whose body
decodes to `payload`, when the upstream answers the conversion request with status 200 and
a body decoded to a map whose `result` entry is the number text `r`, `ServeHTTP` over the
`apiLayerConverter` responds with status 200 and the body
`{"currency": "<targetCurrency>", "value": r}`, with `r` as it is and the target currency
of the payload; it decodes the body, converts once and does not panic. -/
theorem ServeHTTP_success (std : Stdlib) (converter : apiLayerConverter) (request : Request)
    (payload : conversionPayload) (upstreamRequest : HttpRequest) (upstream : HttpResponse)
    (result : List (GoString × JAny)) (r : Number)
    (hmethod : request.Method = "POST".toList)
    (hcontent : validateHeader request.Header "Content-Type".toList "application/json".toList = .ok true)
    (haccept : validateHeader request.Header "Accept".toList "application/json".toList = .ok true)
    (hpayload : std.DecodePayload request.Body = .ok payload)
    (hrequest : converter.newConversionRequest std
      { Quantity := payload.SourceValue, Currency := payload.SourceCurrency }
      payload.TargetCurrency = .ok upstreamRequest)
    (hdo : converter.client upstreamRequest = .ok upstream)
    (hstatus : upstream.StatusCode = 200)
    (hdecode : std.DecodeMap upstream.Body = .ok result)
    (hresult : mapIndex result "result".toList = JAny.number r) :
    (NewController (converter.Convert std)).ServeHTTP std ResponseWriter.fresh request
      = { response :=
            { header := [("Content-Type".toList, ["application/json".toList])],
              status := some 200,
              body := "\x7b\"currency\": \"".toList ++ payload.TargetCurrency
                ++ "\", \"value\": ".toList ++ r ++ "\x7d".toList },
          events := [Event.decode request.Body,
            Event.convert { Quantity := payload.SourceValue, Currency := payload.SourceCurrency }
              payload.TargetCurrency],
          panic := none } := by
  have hconv : converter.Convert std
      { Quantity := payload.SourceValue, Currency := payload.SourceCurrency }
      payload.TargetCurrency
      = .returned { Quantity := r, Currency := payload.TargetCurrency } none := by
    unfold apiLayerConverter.Convert
    simp only [hrequest, hdo, hstatus, hdecode, hresult, StatusBadRequest, StatusOK]
    rfl
  unfold currencyController.ServeHTTP
  simp only [fresh_header_add, hmethod, hcontent, haccept, hpayload, NewController, hconv]
  simp [jsonWriter, ResponseWriter.WriteHeader, ResponseWriter.Write]

/-- Witness of C1: the payload 10 EUR to USD against an upstream answering `{"result": 9.5}`. -/
theorem ServeHTTP_success_witness :
    (NewController ((sampleConverter ⟨200, ⟨"\x7b\"result\": 9.5\x7d".toList, none⟩⟩).Convert sampleStd)).ServeHTTP
        sampleStd ResponseWriter.fresh
        (sampleRequest "POST".toList [("Content-Type".toList, ["application/json".toList])])
      = { response :=
            { header := [("Content-Type".toList, ["application/json".toList])],
              status := some 200,
              body := "\x7b\"currency\": \"USD\", \"value\": 9.5\x7d".toList },
          events := [Event.decode (sampleRequest "POST".toList []).Body,
            Event.convert { Quantity := "10".toList , Currency := "EUR".toList } "USD".toList],
          panic := none } :=
  ServeHTTP_success sampleStd (sampleConverter ⟨200, ⟨"\x7b\"result\": 9.5\x7d".toList, none⟩⟩)
    (sampleRequest "POST".toList [("Content-Type".toList, ["application/json".toList])])
    { SourceCurrency := "EUR".toList, SourceValue := "10".toList, TargetCurrency := "USD".toList }
    sampleUpstreamRequest ⟨200, ⟨"\x7b\"result\": 9.5\x7d".toList, none⟩⟩
    [("result".toList, JAny.number "9.5".toList)] "9.5".toList
    (by decide) (by decide) (by decide) (by decide) (by decide) (by decide) (by decide)
    (by rfl) (by rfl)


/-- C7: the checks of `ServeHTTP` are tried in order and the first that fails answers.  A
method other than `POST` gets status 405 whatever the headers and body; otherwise a failed
Content-Type check gets 415 whatever the Accept header and body; otherwise a failed Accept
check gets 406 whatever the body.  In the three cases the response is fixed, the body is
not decoded and the converter is not called. -/
theorem ServeHTTP_first_failure_wins (std : Stdlib) (controller : currencyController)
    (request : Request) :
    (request.Method ≠ "POST".toList →
      controller.ServeHTTP std ResponseWriter.fresh request
        = { response :=
              { header := [("Content-Type".toList, ["application/json".toList])],
                status := some 405,
                body := "\x7b\"error\": \"only POST requests are supported\")".toList },
            events := [], panic := none }) ∧
    (request.Method = "POST".toList →
      validateHeader request.Header "Content-Type".toList "application/json".toList = .ok false →
      controller.ServeHTTP std ResponseWriter.fresh request
        = { response :=
              { header := [("Content-Type".toList, ["application/json".toList])],
                status := some 415,
                body := "\x7b\"error\": \"only JSON requests are supported\")".toList },
            events := [], panic := none }) ∧
    (request.Method = "POST".toList →
      validateHeader request.Header "Content-Type".toList "application/json".toList = .ok true →
      validateHeader request.Header "Accept".toList "application/json".toList = .ok false →
      controller.ServeHTTP std ResponseWriter.fresh request
        = { response :=
              { header := [("Content-Type".toList, ["application/json".toList])],
                status := some 406,
                body := "\x7b\"error\": \"only JSON responses are supported\")".toList },
            events := [], panic := none }) := by
  refine ⟨?_, ?_, ?_⟩
  · intro hmethod
    unfold currencyController.ServeHTTP
    simp only [fresh_header_add, hmethod, ne_eq, not_false_eq_true, if_true]
    simp [jsonWriter, ResponseWriter.WriteHeader, ResponseWriter.Write]
  · intro hmethod hcontent
    unfold currencyController.ServeHTTP
    simp only [fresh_header_add, hmethod, hcontent]
    simp [jsonWriter, ResponseWriter.WriteHeader, ResponseWriter.Write]
  · intro hmethod hcontent haccept
    unfold currencyController.ServeHTTP
    simp only [fresh_header_add, hmethod, hcontent, haccept]
    simp [jsonWriter, ResponseWriter.WriteHeader, ResponseWriter.Write]

/-- Witness of C7: a GET request with bad headers, a POST request with `Content-Type:
text/plain` and a bad Accept header, and a POST request with `Accept: text/plain`. -/
theorem ServeHTTP_first_failure_wins_witness :
    ((NewController fun _ _ => .panicked []).ServeHTTP sampleStd ResponseWriter.fresh
        (sampleRequest "GET".toList [("Content-Type".toList, ["text/plain".toList])])).response.status
      = some 405 ∧
    ((NewController fun _ _ => .panicked []).ServeHTTP sampleStd ResponseWriter.fresh
        (sampleRequest "POST".toList [("Content-Type".toList, ["text/plain".toList]),
          ("Accept".toList, ["text/plain".toList])])).response.status
      = some 415 ∧
    ((NewController fun _ _ => .panicked []).ServeHTTP sampleStd ResponseWriter.fresh
        (sampleRequest "POST".toList [("Accept".toList, ["text/plain".toList])])).response.status
      = some 406 :=
  ⟨by rw [(ServeHTTP_first_failure_wins sampleStd (NewController fun _ _ => .panicked [])
        (sampleRequest "GET".toList [("Content-Type".toList, ["text/plain".toList])])).1
        (by decide)],
    by rw [(ServeHTTP_first_failure_wins sampleStd (NewController fun _ _ => .panicked [])
        (sampleRequest "POST".toList [("Content-Type".toList, ["text/plain".toList]),
          ("Accept".toList, ["text/plain".toList])])).2.1 (by decide) (by decide)],
    by rw [(ServeHTTP_first_failure_wins sampleStd (NewController fun _ _ => .panicked [])
        (sampleRequest "POST".toList [("Accept".toList, ["text/plain".toList])])).2.2
        (by decide) (by decide) (by decide)]⟩

theorem sendBadRequest_status (msg : GoString) :
    (sendBadRequest jsonWriter msg).status = some 400 := by
  simp [sendBadRequest, jsonWriter, ResponseWriter.WriteHeader, ResponseWriter.Write]

theorem sendServerError_status (msg : GoString) :
    (sendServerError jsonWriter msg).status = some 500 := by
  simp [sendServerError, jsonWriter, ResponseWriter.WriteHeader, ResponseWriter.Write]

/-- C8: for a request that passes the checks and decodes to `payload`, when the converter
returns the error `err`, the response of the handler has status 400 and a body that holds
the message `invalid source currency <sourceCurrency>` for `InvalidSourceCurrency`,
`invalid target currency <targetCurrency>` for `InvalidTargetCurrency` and
`invalid conversion amount <sourceValue>` for `InvalidConversionAmount`, and status 500 and
a body that holds the message text of `err` for every other error; the currencies and the
value are those of the payload, and the body is the message after `{"error": "`, closed as
the code closes it. -/
theorem ServeHTTP_conversion_error (std : Stdlib) (controller : currencyController)
    (request : Request) (payload : conversionPayload) (amount : Amount) (err : GoError)
    (hmethod : request.Method = "POST".toList)
    (hcontent : validateHeader request.Header "Content-Type".toList "application/json".toList = .ok true)
    (haccept : validateHeader request.Header "Accept".toList "application/json".toList = .ok true)
    (hpayload : std.DecodePayload request.Body = .ok payload)
    (hconvert : controller.service
      { Quantity := payload.SourceValue, Currency := payload.SourceCurrency }
      payload.TargetCurrency = .returned amount (some err)) :
    (err = InvalidSourceCurrency →
      (controller.ServeHTTP std ResponseWriter.fresh request).response
        = { header := [("Content-Type".toList, ["application/json".toList])],
            status := some 400,
            body := "\x7b\"error\": \"".toList
              ++ ("invalid source currency ".toList ++ payload.SourceCurrency)
              ++ "\")".toList }) ∧
    (err = InvalidTargetCurrency →
      (controller.ServeHTTP std ResponseWriter.fresh request).response
        = { header := [("Content-Type".toList, ["application/json".toList])],
            status := some 400,
            body := "\x7b\"error\": \"".toList
              ++ ("invalid target currency ".toList ++ payload.TargetCurrency)
              ++ "\")".toList }) ∧
    (err = InvalidConversionAmount →
      (controller.ServeHTTP std ResponseWriter.fresh request).response
        = { header := [("Content-Type".toList, ["application/json".toList])],
            status := some 400,
            body := "\x7b\"error\": \"".toList
              ++ ("invalid conversion amount ".toList ++ payload.SourceValue)
              ++ "\")".toList }) ∧
    (err ≠ InvalidSourceCurrency → err ≠ InvalidTargetCurrency → err ≠ InvalidConversionAmount →
      (controller.ServeHTTP std ResponseWriter.fresh request).response
        = { header := [("Content-Type".toList, ["application/json".toList])],
            status := some 500,
            body := "\x7b\"error\": \"".toList ++ err.Error ++ "\")".toList }) := by
  have hserve : (controller.ServeHTTP std ResponseWriter.fresh request).response
      = handleError jsonWriter payload err := by
    unfold currencyController.ServeHTTP
    simp only [fresh_header_add, hmethod, hcontent, haccept, hpayload, hconvert]
    simp
  rw [hserve]
  refine ⟨?_, ?_, ?_, ?_⟩
  · intro h
    subst h
    have e : handleError jsonWriter payload InvalidSourceCurrency
        = sendBadRequest jsonWriter ("invalid source currency ".toList ++ payload.SourceCurrency) := by
      simp [handleError]
    rw [e]
    rfl
  · intro h
    subst h
    have e : handleError jsonWriter payload InvalidTargetCurrency
        = sendBadRequest jsonWriter ("invalid target currency ".toList ++ payload.TargetCurrency) := by
      unfold handleError
      rw [if_neg (by decide), if_pos rfl]
    rw [e]
    rfl
  · intro h
    subst h
    have e : handleError jsonWriter payload InvalidConversionAmount
        = sendBadRequest jsonWriter ("invalid conversion amount ".toList ++ payload.SourceValue) := by
      unfold handleError
      rw [if_neg (by decide), if_neg (by decide), if_pos rfl]
    rw [e]
    rfl
  · intro h1 h2 h3
    have e : handleError jsonWriter payload err = sendServerError jsonWriter err.Error := by
      unfold handleError
      rw [if_neg h1, if_neg h2, if_neg h3]
    rw [e]
    rfl

/-- Witness of C8: a converter that answers `InvalidTargetCurrency`, on the sample payload. -/
theorem ServeHTTP_conversion_error_witness :
    ((NewController fun _ _ => .returned zeroAmount (some InvalidTargetCurrency)).ServeHTTP sampleStd
        ResponseWriter.fresh (sampleRequest "POST".toList [])).response
      = { header := [("Content-Type".toList, ["application/json".toList])],
          status := some 400,
          body := "\x7b\"error\": \"".toList
            ++ ("invalid target currency ".toList ++ "USD".toList) ++ "\")".toList } :=
  (ServeHTTP_conversion_error sampleStd
    (NewController fun _ _ => .returned zeroAmount (some InvalidTargetCurrency))
    (sampleRequest "POST".toList [])
    { SourceCurrency := "EUR".toList, SourceValue := "10".toList, TargetCurrency := "USD".toList }
    zeroAmount InvalidTargetCurrency
    (by decide) (by decide) (by decide) (by decide) (by decide)).2.1 rfl

/-- C9 (the code departs from it): the body that `ServeHTTP` writes for a GET request is
`{"error": "only POST requests are supported")`, closed by a parenthesis where the JSON
object needs a brace; `sendBadRequest` and `sendServerError` close their bodies the same way. -/
theorem ServeHTTP_error_body_not_json :
    ((NewController fun _ _ => .panicked []).ServeHTTP sampleStd ResponseWriter.fresh
        (sampleRequest "GET".toList [])).response.body
      = "\x7b\"error\": \"only POST requests are supported\")".toList ∧
    ((NewController fun _ _ => .panicked []).ServeHTTP sampleStd ResponseWriter.fresh
        (sampleRequest "GET".toList [])).response.body
      ≠ "\x7b\"error\": \"only POST requests are supported\"\x7d".toList ∧
    (sendBadRequest jsonWriter "invalid target currency USD".toList).body
      = "\x7b\"error\": \"invalid target currency USD\")".toList ∧
    (sendServerError jsonWriter "nope".toList).body = "\x7b\"error\": \"nope\")".toList := by
  decide

/-- C12: for a request that passes the method, Content-Type and Accept checks and whose body
decodes to `payload`, `ServeHTTP` calls the converter once, after the one decoding of the
body, with the amount whose quantity is the decoded `sourceValue` text and whose currency is
`sourceCurrency`, and with `targetCurrency` as the target: the call log is that decoding and
that call, and what the handler leaves is what the converter does on these arguments, its
panic, its error through `handleError`, or its amount in the body of a 200 response. -/
theorem ServeHTTP_converts_once (std : Stdlib) (controller : currencyController)
    (request : Request) (payload : conversionPayload)
    (hmethod : request.Method = "POST".toList)
    (hcontent : validateHeader request.Header "Content-Type".toList "application/json".toList = .ok true)
    (haccept : validateHeader request.Header "Accept".toList "application/json".toList = .ok true)
    (hpayload : std.DecodePayload request.Body = .ok payload) :
    (controller.ServeHTTP std ResponseWriter.fresh request).events
      = [Event.decode request.Body,
         Event.convert { Quantity := payload.SourceValue, Currency := payload.SourceCurrency }
           payload.TargetCurrency] ∧
    (∀ msg, controller.service
        { Quantity := payload.SourceValue, Currency := payload.SourceCurrency }
        payload.TargetCurrency = .panicked msg →
      (controller.ServeHTTP std ResponseWriter.fresh request).panic = some msg ∧
      (controller.ServeHTTP std ResponseWriter.fresh request).response
        = { header := [("Content-Type".toList, ["application/json".toList])],
            status := none, body := [] }) ∧
    (∀ result err, controller.service
        { Quantity := payload.SourceValue, Currency := payload.SourceCurrency }
        payload.TargetCurrency = .returned result (some err) →
      (controller.ServeHTTP std ResponseWriter.fresh request).panic = none ∧
      (controller.ServeHTTP std ResponseWriter.fresh request).response
        = handleError
            { header := [("Content-Type".toList, ["application/json".toList])],
              status := none, body := [] } payload err) ∧
    (∀ result, controller.service
        { Quantity := payload.SourceValue, Currency := payload.SourceCurrency }
        payload.TargetCurrency = .returned result none →
      (controller.ServeHTTP std ResponseWriter.fresh request).panic = none ∧
      (controller.ServeHTTP std ResponseWriter.fresh request).response
        = { header := [("Content-Type".toList, ["application/json".toList])],
            status := some 200,
            body := "\x7b\"currency\": \"".toList ++ result.Currency
              ++ "\", \"value\": ".toList ++ result.Quantity ++ "\x7d".toList }) := by
  refine ⟨?_, ?_, ?_, ?_⟩
  · unfold currencyController.ServeHTTP
    simp only [hmethod, hcontent, haccept, hpayload]
    cases controller.service { Quantity := payload.SourceValue, Currency := payload.SourceCurrency }
        payload.TargetCurrency with
    | panicked msg => simp
    | returned result err =>
      cases err with
      | none => simp
      | some e => simp
  · intro msg hservice
    unfold currencyController.ServeHTTP
    simp only [fresh_header_add, hmethod, hcontent, haccept, hpayload, hservice]
    simp [jsonWriter]
  · intro result err hservice
    unfold currencyController.ServeHTTP
    simp only [fresh_header_add, hmethod, hcontent, haccept, hpayload, hservice]
    simp [jsonWriter]
  · intro result hservice
    unfold currencyController.ServeHTTP
    simp only [fresh_header_add, hmethod, hcontent, haccept, hpayload, hservice]
    simp [jsonWriter, ResponseWriter.WriteHeader, ResponseWriter.Write]

/-- Witness of C12: the sample payload, 10 EUR to USD, over a converter that returns the
amount it is given with the target as currency: the response carries `10` and `USD`. -/
theorem ServeHTTP_converts_once_witness :
    ((NewController fun a t => .returned ⟨a.Quantity, t⟩ none).ServeHTTP sampleStd
        ResponseWriter.fresh (sampleRequest "POST".toList [])).events
      = [Event.decode (sampleRequest "POST".toList []).Body,
         Event.convert { Quantity := "10".toList, Currency := "EUR".toList } "USD".toList] ∧
    ((NewController fun a t => .returned ⟨a.Quantity, t⟩ none).ServeHTTP sampleStd
        ResponseWriter.fresh (sampleRequest "POST".toList [])).response
      = { header := [("Content-Type".toList, ["application/json".toList])],
          status := some 200,
          body := "\x7b\"currency\": \"USD\", \"value\": 10\x7d".toList } :=
  ⟨(ServeHTTP_converts_once sampleStd
      (NewController fun a t => .returned ⟨a.Quantity, t⟩ none)
      (sampleRequest "POST".toList [])
      { SourceCurrency := "EUR".toList, SourceValue := "10".toList, TargetCurrency := "USD".toList }
      (by decide) (by decide) (by decide) (by decide)).1,
    ((ServeHTTP_converts_once sampleStd
      (NewController fun a t => .returned ⟨a.Quantity, t⟩ none)
      (sampleRequest "POST".toList [])
      { SourceCurrency := "EUR".toList, SourceValue := "10".toList, TargetCurrency := "USD".toList }
      (by decide) (by decide) (by decide) (by decide)).2.2.2
      ⟨"10".toList, "USD".toList⟩ rfl).2⟩

/-- C13: for a request that fails the method check, the Content-Type check, the Accept check
or the decoding of its body, `ServeHTTP` makes no call of the converter, and what it leaves
(status, body, headers) is the same for any two converters. -/
theorem ServeHTTP_validation_before_convert (std : Stdlib) (first second : currencyController)
    (request : Request)
    (hfail : request.Method ≠ "POST".toList ∨
      validateHeader request.Header "Content-Type".toList "application/json".toList ≠ .ok true ∨
      validateHeader request.Header "Accept".toList "application/json".toList ≠ .ok true ∨
      ∃ err, std.DecodePayload request.Body = .error err) :
    first.ServeHTTP std ResponseWriter.fresh request
        = second.ServeHTTP std ResponseWriter.fresh request ∧
      ∀ amount targetCurrency,
        Event.convert amount targetCurrency
          ∉ (first.ServeHTTP std ResponseWriter.fresh request).events := by
  unfold currencyController.ServeHTTP
  by_cases hmethod : request.Method = "POST".toList
  · simp only [hmethod, ne_eq, not_true_eq_false, if_false]
    cases hcontent : validateHeader request.Header "Content-Type".toList "application/json".toList with
    | error msg => simp
    | ok passed =>
      cases passed with
      | false => simp
      | true =>
        cases haccept : validateHeader request.Header "Accept".toList "application/json".toList with
        | error msg => simp
        | ok passed =>
          cases passed with
          | false => simp
          | true =>
            rcases hfail with h | h | h | ⟨err, h⟩
            · exact absurd hmethod h
            · exact absurd hcontent h
            · exact absurd haccept h
            · simp [h]
  · simp only [ne_eq, hmethod, not_false_eq_true, if_true]
    simp

/-- Witness of C13: a GET request, over a converter that succeeds and one that panics. -/
theorem ServeHTTP_validation_before_convert_witness :
    (NewController fun a _ => .returned a none).ServeHTTP sampleStd ResponseWriter.fresh
        (sampleRequest "GET".toList [])
      = (NewController fun _ _ => .panicked []).ServeHTTP sampleStd ResponseWriter.fresh
        (sampleRequest "GET".toList []) :=
  (ServeHTTP_validation_before_convert sampleStd (NewController fun a _ => .returned a none)
    (NewController fun _ _ => .panicked []) (sampleRequest "GET".toList [])
    (Or.inl (by decide))).1


theorem handleError_wrapError_status (payload : conversionPayload) (msg : GoString)
    (inner : GoError) :
    (handleError jsonWriter payload (.wrapError msg inner)).status = some 500 := by
  unfold handleError
  rw [if_neg (by intro h; cases h), if_neg (by intro h; cases h), if_neg (by intro h; cases h)]
  exact sendServerError_status _

/-- C14: when the upstream answers with status 200 and a body that the JSON decoder rejects
with the error `cause`, or with status 400 and a body, read whole, that `json.Unmarshal`
rejects with the error `cause`, `Convert` returns an error that wraps `cause`, whose message
is `could not read conversion response: ` (status 200) or
`failed to parse conversion error response: ` (status 400) followed by the message of
`cause`; it is none of the three `ConversionError` constants, and `handleError` answers it
with status 500. -/
theorem Convert_decode_failure (std : Stdlib) (converter : apiLayerConverter) (amount : Amount)
    (targetCurrency : Currency) (request : HttpRequest) (response : HttpResponse)
    (cause : GoError) (payload : conversionPayload)
    (hrequest : converter.newConversionRequest std amount targetCurrency = .ok request)
    (hdo : converter.client request = .ok response)
    (hfail : (response.StatusCode = 200 ∧ std.DecodeMap response.Body = .error cause) ∨
      (response.StatusCode = 400 ∧ response.Body.err = none ∧
        std.Unmarshal response.Body.data = .error cause)) :
    ∃ err, converter.Convert std amount targetCurrency = .returned zeroAmount (some err) ∧
      err.Error = (if response.StatusCode = 200 then "could not read conversion response: ".toList
        else "failed to parse conversion error response: ".toList) ++ cause.Error ∧
      err ≠ InvalidSourceCurrency ∧ err ≠ InvalidTargetCurrency ∧ err ≠ InvalidConversionAmount ∧
      (handleError jsonWriter payload err).status = some 500 := by
  rcases hfail with ⟨hstatus, hdecode⟩ | ⟨hstatus, hread, hdecode⟩
  · refine ⟨errorfWrap "could not read conversion response: ".toList cause, ?_, ?_, ?_, ?_, ?_, ?_⟩
    · unfold apiLayerConverter.Convert
      simp only [hrequest, hdo, hstatus, hdecode, StatusBadRequest, StatusOK]
      rfl
    · simp only [hstatus, if_true]
      rfl
    · intro h; cases h
    · intro h; cases h
    · intro h; cases h
    · exact handleError_wrapError_status _ _ _
  · refine ⟨errorfWrap "failed to parse conversion error response: ".toList cause,
      ?_, ?_, ?_, ?_, ?_, ?_⟩
    · unfold apiLayerConverter.Convert
      simp only [hrequest, hdo, hstatus, StatusBadRequest, if_true]
      unfold apiLayerConverter.extractBadRequestError ReadAll
      simp only [hread, hdecode]
    · have : ¬ ((400 : Int) = 200) := by decide
      simp only [hstatus, this, if_false]
      rfl
    · intro h; cases h
    · intro h; cases h
    · intro h; cases h
    · exact handleError_wrapError_status _ _ _

/-- Witness of C14: an upstream 200 whose body `nope` is not JSON. -/
theorem Convert_decode_failure_witness :
    sampleStd.DecodeMap ⟨"nope".toList, none⟩
      = .error (.library "unexpected end of JSON input".toList) ∧
    ∃ err, (sampleConverter ⟨200, ⟨"nope".toList, none⟩⟩).Convert sampleStd
        ⟨"10".toList, "EUR".toList⟩ "USD".toList = .returned zeroAmount (some err) ∧
      err.Error = "could not read conversion response: unexpected end of JSON input".toList ∧
      (handleError jsonWriter
        { SourceCurrency := "EUR".toList, SourceValue := "10".toList,
          TargetCurrency := "USD".toList } err).status = some 500 := by
  refine ⟨by rfl, ?_⟩
  obtain ⟨err, h1, h2, _, _, _, h3⟩ := Convert_decode_failure sampleStd
    (sampleConverter ⟨200, ⟨"nope".toList, none⟩⟩) ⟨"10".toList, "EUR".toList⟩ "USD".toList
    sampleUpstreamRequest ⟨200, ⟨"nope".toList, none⟩⟩
    (.library "unexpected end of JSON input".toList)
    { SourceCurrency := "EUR".toList, SourceValue := "10".toList, TargetCurrency := "USD".toList }
    (by decide) (by decide) (Or.inl ⟨by decide, by rfl⟩)
  exact ⟨err, h1, h2.trans (by decide), h3⟩

/-- C15 (the code departs from it): on an upstream 200 whose body is the JSON object
`{"success": false}`, without a `result` entry, the type assertion `rawAmount.(json.Number)`
panics: `Convert` returns neither an amount nor an error, and `ServeHTTP` ends by that panic
with no status and no body written. -/
theorem Convert_panics_without_result :
    noResultStd.DecodeMap ⟨"\x7b\"success\": false\x7d".toList, none⟩
      = .ok [("success".toList, JAny.bool false)] ∧
    (sampleConverter ⟨200, ⟨"\x7b\"success\": false\x7d".toList, none⟩⟩).Convert noResultStd
        ⟨"10".toList, "EUR".toList⟩ "USD".toList
      = .panicked "interface conversion: interface \x7b\x7d is nil, not json.Number".toList ∧
    (NewController ((sampleConverter ⟨200, ⟨"\x7b\"success\": false\x7d".toList, none⟩⟩).Convert
        noResultStd)).ServeHTTP noResultStd ResponseWriter.fresh (sampleRequest "POST".toList [])
      = { response := jsonWriter,
          events := [Event.decode (sampleRequest "POST".toList []).Body,
            Event.convert { Quantity := "10".toList, Currency := "EUR".toList } "USD".toList],
          panic := some "interface conversion: interface \x7b\x7d is nil, not json.Number".toList } := by
  refine ⟨by rfl, by rfl, by rfl⟩

/-- C17: whenever `Convert` returns a non-nil error, the amount it returns with it is the
zero amount, with empty quantity and empty currency. -/
theorem Convert_error_zeroAmount (std : Stdlib) (converter : apiLayerConverter) (amount : Amount)
    (targetCurrency : Currency) (result : Amount) (err : GoError)
    (hconvert : converter.Convert std amount targetCurrency = .returned result (some err)) :
    result = zeroAmount ∧ result.Quantity = [] ∧ result.Currency = [] := by
  have key : result = zeroAmount := by
    unfold apiLayerConverter.Convert at hconvert
    split at hconvert
    · cases hconvert; rfl
    · split at hconvert
      · cases hconvert; rfl
      · simp only at hconvert
        split at hconvert
        · cases hconvert; rfl
        · split at hconvert
          · cases hconvert; rfl
          · split at hconvert
            · cases hconvert; rfl
            · split at hconvert
              · cases hconvert
              · cases hconvert
  subst key
  exact ⟨rfl, rfl, rfl⟩

/-- Witness of C17: the upstream answers 500 with the body `nope`. -/
theorem Convert_error_zeroAmount_witness :
    (sampleConverter ⟨500, ⟨"nope".toList, none⟩⟩).Convert sampleStd
        ⟨"10".toList, "EUR".toList⟩ "USD".toList
      = .returned zeroAmount
          (some (.errorString "unexpected error (upstream status 500): nope".toList)) ∧
    (zeroAmount = zeroAmount ∧ zeroAmount.Quantity = [] ∧ zeroAmount.Currency = []) :=
  ⟨by decide,
    Convert_error_zeroAmount sampleStd (sampleConverter ⟨500, ⟨"nope".toList, none⟩⟩)
      ⟨"10".toList, "EUR".toList⟩ "USD".toList zeroAmount
      (.errorString "unexpected error (upstream status 500): nope".toList) (by decide)⟩


theorem Index_eq_neg_one_iff (c : Char) (s : GoString) :
    strings.Index s [c] = -1 ↔ c ∉ s := by
  rw [Index_single]
  by_cases h : c ∈ s
  · simp only [h, if_true, not_true_eq_false, iff_false]
    omega
  · simp [h]

theorem validateHeader_application_json (headers : Header) (h : GoString) :
    ∃ b, validateHeader headers h "application/json".toList = .ok b := by
  by_cases hv : Header.Values headers h = []
  · exact ⟨true, by unfold validateHeader; simp [hv]⟩
  · exact ⟨_, validateHeader_present headers h "application".toList "json".toList (by decide) hv⟩

/-- C18: `validateHeader` aborts exactly when the header has values and the expected value
holds no `/`, and then with the message `invalid MIME type <expected value>`.  Against
`application/json`, the only expected value that `ServeHTTP` passes, it returns for every
header map, so a panic of `ServeHTTP` can only be a panic of the converter; the wildcard
derived from `application/json` is `application/*`, the text before the first `/` and `/*`. -/
theorem validateHeader_abort_iff (std : Stdlib) (controller : currencyController)
    (request : Request) (headers : Header) (h expectedValue : GoString) :
    ((∃ msg, validateHeader headers h expectedValue = .error msg)
      ↔ (Header.Values headers h ≠ [] ∧ '/' ∉ expectedValue)) ∧
    (∀ msg, validateHeader headers h expectedValue = .error msg →
      msg = "invalid MIME type ".toList ++ expectedValue) ∧
    (∃ b, validateHeader headers h "application/json".toList = .ok b) ∧
    (∀ msg, (controller.ServeHTTP std ResponseWriter.fresh request).panic = some msg →
      ∃ amount targetCurrency, controller.service amount targetCurrency = .panicked msg) ∧
    "application/json".toList.take (strings.Index "application/json".toList "/".toList).toNat
        ++ "/*".toList = "application/*".toList := by
  have hslash : "/".toList = ['/'] := rfl
  refine ⟨?_, ?_, validateHeader_application_json headers h, ?_, by decide⟩
  · unfold validateHeader
    by_cases hv : Header.Values headers h = []
    · simp [hv]
    · have hlen : ¬ (Header.Values headers h).length = 0 := fun h0 =>
        hv (List.length_eq_zero.mp h0)
      by_cases hs : '/' ∈ expectedValue
      · have hi : ¬ strings.Index expectedValue "/".toList = -1 := by
          rw [hslash, Index_eq_neg_one_iff]
          exact fun hn => hn hs
        simp only [hlen, hi, if_false]
        simp [hv, hs]
      · have hi : strings.Index expectedValue "/".toList = -1 := by
          rw [hslash, Index_eq_neg_one_iff]
          exact hs
        simp only [hlen, hi, if_false, if_true]
        simp [hv, hs]
  · intro msg hmsg
    unfold validateHeader at hmsg
    simp only at hmsg
    split at hmsg
    · cases hmsg
    · split at hmsg
      · cases hmsg; rfl
      · cases hmsg
  · intro msg hpanic
    obtain ⟨b1, h1⟩ := validateHeader_application_json request.Header "Content-Type".toList
    obtain ⟨b2, h2⟩ := validateHeader_application_json request.Header "Accept".toList
    unfold currencyController.ServeHTTP at hpanic
    by_cases hmethod : request.Method = "POST".toList
    · simp only [hmethod, ne_eq, not_true_eq_false, if_false, h1, h2] at hpanic
      cases b1 with
      | false => simp at hpanic
      | true =>
        cases b2 with
        | false => simp at hpanic
        | true =>
          simp only at hpanic
          split at hpanic
          · simp at hpanic
          · split at hpanic
            · rename_i payload _ msg' hservice
              simp only [Option.some.injEq] at hpanic
              subst hpanic
              exact ⟨_, _, hservice⟩
            · simp at hpanic
            · simp at hpanic
    · simp only [ne_eq, hmethod, not_false_eq_true, if_true] at hpanic
      simp at hpanic


/-- Witness of C18: against the expected value `json`, without `/`, a present header aborts. -/
theorem validateHeader_abort_iff_witness :
    ∃ msg, validateHeader [("Accept".toList, ["text/plain".toList])] "Accept".toList "json".toList
      = .error msg :=
  (validateHeader_abort_iff sampleStd (NewController fun a _ => .returned a none)
    (sampleRequest "POST".toList []) [("Accept".toList, ["text/plain".toList])]
    "Accept".toList "json".toList).1.mpr ⟨by decide, by decide⟩

theorem Split_ne_nil (sep : Char) : ∀ s : GoString, strings.Split s sep ≠ [] := by
  intro s
  cases s with
  | nil => simp [strings.Split]
  | cons c s =>
    unfold strings.Split
    split
    · simp
    · split <;> simp

theorem Split_append_sep (sep : Char) (b : GoString) :
    ∀ a : GoString, strings.Split (a ++ sep :: b) sep = strings.Split a sep ++ strings.Split b sep := by
  intro a
  induction a with
  | nil => simp [strings.Split]
  | cons c a ih =>
    by_cases hc : c = sep
    · simp [strings.Split, hc, ih]
    · obtain ⟨piece, pieces, hsplit⟩ := List.exists_cons_of_ne_nil (Split_ne_nil sep a)
      have step : strings.Split (c :: (a ++ sep :: b)) sep
          = match strings.Split (a ++ sep :: b) sep with
            | [] => [[c]]
            | piece :: pieces => (c :: piece) :: pieces := by
        rw [strings.Split, if_neg hc]
      have step' : strings.Split (c :: a) sep
          = match strings.Split a sep with
            | [] => [[c]]
            | piece :: pieces => (c :: piece) :: pieces := by
        rw [strings.Split, if_neg hc]
      rw [List.cons_append, step, step', ih, hsplit]
      rfl

theorem extractValues_append (occurrence extra : GoString) :
    extractValues (occurrence ++ ",".toList ++ extra)
      = extractValues occurrence ++ extractValues extra := by
  have e : occurrence ++ ",".toList ++ extra = occurrence ++ ',' :: extra := by
    show occurrence ++ [','] ++ extra = occurrence ++ ',' :: extra
    simp
  rw [e, extractValues_eq_map, extractValues_eq_map, extractValues_eq_map, Split_append_sep,
    List.map_append]

/-- The result of `validateHeader` when the header has values: the abort, or whether some
value of some occurrence is one of the accepted values. -/
theorem validateHeader_of_values (headers : Header) (h expectedValue : GoString)
    (hv : Header.Values headers h ≠ []) :
    validateHeader headers h expectedValue
      = if strings.Index expectedValue "/".toList = -1 then
          .error ("invalid MIME type ".toList ++ expectedValue)
        else .ok ((Header.Values headers h).any fun rawValue =>
          (extractValues rawValue).any fun value =>
            [expectedValue,
              expectedValue.take (strings.Index expectedValue "/".toList).toNat ++ "/*".toList,
              "*/*".toList].any fun okValue => decide (value = okValue)) := by
  have hlen : ¬ (Header.Values headers h).length = 0 := fun h0 =>
    hv (List.length_eq_zero.mp h0)
  unfold validateHeader
  simp only [hlen, if_false]

/-- C16: once the header has values, content negotiation is monotone and does not depend on
the order of the occurrences.  If `validateHeader` returns true on a non-empty list of
occurrences, it returns true on every list that holds these occurrences and others, and on
the list where one occurrence is followed by `,` and further text; and on two lists that
are reorderings of each other it gives the same result. -/
theorem validateHeader_monotone (headers headers' : Header) (h expectedValue : GoString) :
    (Header.Values headers h ≠ [] → validateHeader headers h expectedValue = .ok true →
      (∀ occurrence ∈ Header.Values headers h, occurrence ∈ Header.Values headers' h) →
      validateHeader headers' h expectedValue = .ok true) ∧
    (∀ before after occurrence extra,
      validateHeader headers h expectedValue = .ok true →
      Header.Values headers h = before ++ occurrence :: after →
      Header.Values headers' h = before ++ (occurrence ++ ",".toList ++ extra) :: after →
      validateHeader headers' h expectedValue = .ok true) ∧
    ((Header.Values headers' h).Perm (Header.Values headers h) →
      validateHeader headers' h expectedValue = validateHeader headers h expectedValue) := by
  refine ⟨?_, ?_, ?_⟩
  · intro hv htrue hsub
    have hv' : Header.Values headers' h ≠ [] := by
      obtain ⟨o, ho⟩ := List.exists_mem_of_ne_nil _ hv
      exact List.ne_nil_of_mem (hsub o ho)
    rw [validateHeader_of_values _ _ _ hv] at htrue
    rw [validateHeader_of_values _ _ _ hv']
    split at htrue
    · cases htrue
    · rename_i hi
      rw [if_neg hi]
      simp only [Except.ok.injEq, List.any_eq_true] at htrue ⊢
      obtain ⟨raw, hraw, hrest⟩ := htrue
      exact ⟨raw, hsub raw hraw, hrest⟩
  · intro before after occurrence extra htrue hvals hvals'
    have hv : Header.Values headers h ≠ [] := by rw [hvals]; simp
    have hv' : Header.Values headers' h ≠ [] := by rw [hvals']; simp
    rw [validateHeader_of_values _ _ _ hv] at htrue
    rw [validateHeader_of_values _ _ _ hv']
    split at htrue
    · cases htrue
    · rename_i hi
      rw [if_neg hi]
      simp only [Except.ok.injEq, List.any_eq_true] at htrue ⊢
      obtain ⟨raw, hraw, value, hvalue, hrest⟩ := htrue
      rw [hvals] at hraw
      rw [hvals']
      rcases List.mem_append.mp hraw with hb | ha
      · exact ⟨raw, List.mem_append_left _ hb, value, hvalue, hrest⟩
      · rcases List.mem_cons.mp ha with ho | ha
        · subst ho
          refine ⟨raw ++ ",".toList ++ extra,
            List.mem_append_right _ (List.mem_cons_self _ _), value, ?_, hrest⟩
          rw [extractValues_append]
          exact List.mem_append_left _ hvalue
        · exact ⟨raw, List.mem_append_right _ (List.mem_cons_of_mem _ ha), value, hvalue, hrest⟩
  · intro hperm
    by_cases hv : Header.Values headers h = []
    · have hv' : Header.Values headers' h = [] := by
        rw [hv] at hperm
        exact List.Perm.eq_nil hperm
      unfold validateHeader
      simp [hv, hv']
    · have hv' : Header.Values headers' h ≠ [] := by
        intro h0
        rw [h0] at hperm
        exact hv (List.Perm.eq_nil hperm.symm)
      rw [validateHeader_of_values _ _ _ hv, validateHeader_of_values _ _ _ hv']
      split
      · rfl
      · congr 1
        rw [Bool.eq_iff_iff]
        simp only [List.any_eq_true]
        constructor
        · rintro ⟨raw, hraw, hrest⟩
          exact ⟨raw, hperm.mem_iff.mp hraw, hrest⟩
        · rintro ⟨raw, hraw, hrest⟩
          exact ⟨raw, hperm.mem_iff.mpr hraw, hrest⟩

/-- Witness of C16: `Accept: text/plain` and `Accept: application/json`, then a third
occurrence added, a value appended to the first occurrence, and the two swapped. -/
theorem validateHeader_monotone_witness :
    validateHeader [("Accept".toList, ["text/plain".toList, "application/json".toList,
        "text/html".toList])] "Accept".toList "application/json".toList = .ok true ∧
    validateHeader [("Accept".toList, ["text/plain".toList ++ ",".toList ++ "text/html".toList,
        "application/json".toList])] "Accept".toList "application/json".toList = .ok true ∧
    validateHeader [("Accept".toList, ["application/json".toList, "text/plain".toList])]
        "Accept".toList "application/json".toList
      = validateHeader [("Accept".toList, ["text/plain".toList, "application/json".toList])]
        "Accept".toList "application/json".toList :=
  ⟨(validateHeader_monotone
      [("Accept".toList, ["text/plain".toList, "application/json".toList])]
      [("Accept".toList, ["text/plain".toList, "application/json".toList, "text/html".toList])]
      "Accept".toList "application/json".toList).1 (by decide) (by decide) (by decide),
    (validateHeader_monotone
      [("Accept".toList, ["text/plain".toList, "application/json".toList])]
      [("Accept".toList, ["text/plain".toList ++ ",".toList ++ "text/html".toList,
        "application/json".toList])]
      "Accept".toList "application/json".toList).2.1 [] ["application/json".toList]
      "text/plain".toList "text/html".toList (by decide) (by decide) (by decide),
    (validateHeader_monotone
      [("Accept".toList, ["text/plain".toList, "application/json".toList])]
      [("Accept".toList, ["application/json".toList, "text/plain".toList])]
      "Accept".toList "application/json".toList).2.2 (List.Perm.swap _ _ _)⟩

/-! ## The upstream request -/

set_option maxRecDepth 1000000 in
theorem escapeByte_shape : ∀ b, b < 256 →
    (escapeByte b = [Char.ofNat b] ∧ Char.ofNat b ≠ '%' ∧ Char.ofNat b ≠ '+'
        ∧ (Char.ofNat b).toNat = b) ∨
    (escapeByte b = ['+'] ∧ b = 32) ∨
    (escapeByte b = ['%', upperHex (b / 16), upperHex (b % 16)]
        ∧ unhex (upperHex (b / 16)) = some (b / 16) ∧ unhex (upperHex (b % 16)) = some (b % 16)) := by
  decide

set_option maxRecDepth 1000000 in
theorem escapeByte_plain : ∀ b, b < 256 →
    ∀ c ∈ escapeByte b, c ≠ '&' ∧ c ≠ '=' ∧ c ≠ ';' := by
  decide

theorem QueryUnescape_cons_plain (c : Char) (rest : GoString) (hc : c ≠ '%') :
    QueryUnescape (c :: rest)
      = (QueryUnescape rest).map fun bytes => (if c = '+' then 32 else c.toNat) :: bytes := by
  conv_lhs => unfold QueryUnescape
  simp only [hc, if_false]
  cases QueryUnescape rest <;> rfl

theorem QueryUnescape_cons_percent (hi lo : Char) (rest : GoString) (a b : Nat)
    (hhi : unhex hi = some a) (hlo : unhex lo = some b) :
    QueryUnescape ('%' :: hi :: lo :: rest)
      = (QueryUnescape rest).map fun bytes => (16 * a + b) :: bytes := by
  conv_lhs => unfold QueryUnescape
  simp only [if_true, hhi, hlo]
  cases QueryUnescape rest <;> rfl

theorem QueryUnescape_escapeByte (b : Nat) (hb : b < 256) (rest : GoString) :
    QueryUnescape (escapeByte b ++ rest) = (QueryUnescape rest).map fun bytes => b :: bytes := by
  rcases escapeByte_shape b hb with ⟨he, h1, h2, h3⟩ | ⟨he, h32⟩ | ⟨he, hhi, hlo⟩
  · rw [he, List.singleton_append, QueryUnescape_cons_plain _ _ h1, if_neg h2, h3]
  · rw [he, List.singleton_append, QueryUnescape_cons_plain _ _ (by decide), if_pos rfl, h32]
  · have hsum : 16 * (b / 16) + b % 16 = b := by omega
    rw [he]
    show QueryUnescape ('%' :: upperHex (b / 16) :: upperHex (b % 16) :: rest) = _
    rw [QueryUnescape_cons_percent _ _ _ _ _ hhi hlo, hsum]

theorem QueryUnescape_flatMap : ∀ bytes : List Nat, (∀ b ∈ bytes, b < 256) →
    QueryUnescape (bytes.flatMap escapeByte) = some bytes := by
  intro bytes
  induction bytes with
  | nil => intro _; rfl
  | cons b bytes ih =>
    intro hlt
    rw [List.flatMap_cons, QueryUnescape_escapeByte b (hlt b (List.mem_cons_self _ _)),
      ih fun x hx => hlt x (List.mem_cons_of_mem _ hx)]
    rfl

theorem utf8Bytes_lt (s : GoString) : ∀ b ∈ utf8Bytes s, b < 256 := by
  intro b hb
  unfold utf8Bytes at hb
  simp only [List.mem_flatMap, List.mem_map] at hb
  obtain ⟨_, _, byte, _, rfl⟩ := hb
  exact byte.toNat_lt

theorem QueryEscape_eq_flatMap (s : GoString) :
    QueryEscape s = (utf8Bytes s).flatMap escapeByte := by
  unfold QueryEscape utf8Bytes
  induction s with
  | nil => rfl
  | cons c s ih =>
    rw [List.flatMap_cons, List.flatMap_cons, List.flatMap_append, ih]
    congr 1
    induction String.utf8EncodeChar c with
    | nil => rfl
    | cons x xs ihx => simp [List.flatMap_cons, ihx]

theorem QueryUnescape_QueryEscape (s : GoString) :
    QueryUnescape (QueryEscape s) = some (utf8Bytes s) := by
  rw [QueryEscape_eq_flatMap]
  exact QueryUnescape_flatMap _ (utf8Bytes_lt s)

theorem QueryEscape_plain (s : GoString) :
    ∀ c ∈ QueryEscape s, c ≠ '&' ∧ c ≠ '=' ∧ c ≠ ';' := by
  intro c hc
  rw [QueryEscape_eq_flatMap, List.mem_flatMap] at hc
  obtain ⟨b, hb, hcb⟩ := hc
  exact escapeByte_plain b (utf8Bytes_lt s b hb) c hcb

theorem parsePair_escaped (key value : GoString) :
    parsePair (QueryEscape key ++ '=' :: QueryEscape value)
      = some (utf8Bytes key, utf8Bytes value) := by
  have hsemi : ';' ∉ QueryEscape key ++ '=' :: QueryEscape value := by
    intro hm
    rcases List.mem_append.mp hm with h | h
    · exact (QueryEscape_plain key _ h).2.2 rfl
    · rcases List.mem_cons.mp h with h | h
      · revert h; decide
      · exact (QueryEscape_plain value _ h).2.2 rfl
  have hkey : ∀ x ∈ QueryEscape key, (x != '=') = true := by
    intro x hx
    simp only [bne_iff_ne, ne_eq]
    exact (QueryEscape_plain key x hx).2.1
  have htake : (QueryEscape key ++ '=' :: QueryEscape value).takeWhile (fun c => c != '=')
      = QueryEscape key := by
    rw [List.takeWhile_append_of_pos hkey]
    simp [List.takeWhile]
  have hdrop : (QueryEscape key ++ '=' :: QueryEscape value).dropWhile (fun c => c != '=')
      = '=' :: QueryEscape value := by
    rw [List.dropWhile_append_of_pos hkey]
    simp [List.dropWhile]
  unfold parsePair
  rw [if_neg hsemi, htake, hdrop]
  simp only [List.drop_succ_cons, List.drop_zero, QueryUnescape_QueryEscape]

theorem parsePairs_escaped (key value : GoString) (rest : List GoString) :
    parsePairs ((QueryEscape key ++ '=' :: QueryEscape value) :: rest)
      = (parsePairs rest).map fun pairs => (utf8Bytes key, utf8Bytes value) :: pairs := by
  have hne : ¬ (QueryEscape key ++ '=' :: QueryEscape value = []) := by simp
  rw [parsePairs, if_neg hne, parsePair_escaped]
  cases parsePairs rest <;> rfl

theorem piece_no_amp (key value : GoString) :
    '&' ∉ QueryEscape key ++ '=' :: QueryEscape value := by
  intro hm
  rcases List.mem_append.mp hm with h | h
  · exact (QueryEscape_plain key _ h).1 rfl
  · rcases List.mem_cons.mp h with h | h
    · revert h; decide
    · exact (QueryEscape_plain value _ h).1 rfl

theorem Encode_three (source quantity target : GoString) :
    Encode (Values.Add (Values.Add (Values.Add [] "from".toList source) "amount".toList quantity)
        "to".toList target)
      = (QueryEscape "amount".toList ++ '=' :: QueryEscape quantity) ++ '&' ::
          ((QueryEscape "from".toList ++ '=' :: QueryEscape source) ++ '&' ::
            (QueryEscape "to".toList ++ '=' :: QueryEscape target)) := by
  simp [Encode, Values.Add, mapSet, mapGet, insertKey, stringLess, List.intercalate,
    List.intersperse]

theorem ParseQuery_Encode_three (source quantity target : GoString) :
    ParseQuery (Encode (Values.Add (Values.Add (Values.Add [] "from".toList source)
        "amount".toList quantity) "to".toList target))
      = some [(utf8Bytes "amount".toList, utf8Bytes quantity),
          (utf8Bytes "from".toList, utf8Bytes source),
          (utf8Bytes "to".toList, utf8Bytes target)] := by
  rw [Encode_three]
  unfold ParseQuery
  rw [Split_append_sep, Split_append_sep, Split_of_not_mem _ _ (piece_no_amp _ _),
    Split_of_not_mem _ _ (piece_no_amp _ _), Split_of_not_mem _ _ (piece_no_amp _ _)]
  simp only [List.singleton_append]
  rw [parsePairs_escaped, parsePairs_escaped, parsePairs_escaped]
  rfl

theorem request_headers (key : GoString) :
    Header.Set (Header.Set [] "Accept".toList "application/json".toList) "apikey".toList key
      = [("Accept".toList, ["application/json".toList]), ("Apikey".toList, [key])] := by
  have h1 : CanonicalMIMEHeaderKey "Accept".toList = "Accept".toList := by decide
  have h2 : CanonicalMIMEHeaderKey "apikey".toList = "Apikey".toList := by decide
  have h3 : ¬ ("Accept".toList = "Apikey".toList) := by decide
  unfold Header.Set
  rw [h1, h2]
  simp only [mapSet, h3, if_false]

/-- C11: when the configured URI parses, `newConversionRequest` builds a GET request whose
query string decodes (`url.ParseQuery`) to exactly three parameters, each once: `amount`
with the bytes of the amount's quantity text, `from` with the bytes of the amount's currency
and `to` with the bytes of the target currency; its header map holds `Accept` with the
single value `application/json` and the key under the canonical name `Apikey`, which the
lookups of `Accept` and `apikey` return. -/
theorem newConversionRequest_query (std : Stdlib) (converter : apiLayerConverter)
    (amount : Amount) (targetCurrency : Currency) (u : URL)
    (hurl : std.ParseURL converter.uri = .ok u) :
    ∃ request, converter.newConversionRequest std amount targetCurrency = .ok request ∧
      request.Method = "GET".toList ∧
      ParseQuery request.URL.RawQuery
        = some [(utf8Bytes "amount".toList, utf8Bytes amount.Quantity),
            (utf8Bytes "from".toList, utf8Bytes amount.Currency),
            (utf8Bytes "to".toList, utf8Bytes targetCurrency)] ∧
      request.Header
        = [("Accept".toList, ["application/json".toList]), ("Apikey".toList, [converter.key])] ∧
      Header.Values request.Header "Accept".toList = ["application/json".toList] ∧
      Header.Values request.Header "apikey".toList = [converter.key] := by
  have hbuilt : converter.newConversionRequest std amount targetCurrency
      = .ok { Method := "GET".toList,
              URL := { u with RawQuery := Encode (Values.Add (Values.Add (Values.Add []
                "from".toList amount.Currency) "amount".toList amount.Quantity)
                "to".toList targetCurrency) },
              Header := [("Accept".toList, ["application/json".toList]),
                ("Apikey".toList, [converter.key])] } := by
    unfold apiLayerConverter.newConversionRequest NewRequest
    simp only [hurl, request_headers]
  have h2 : CanonicalMIMEHeaderKey "apikey".toList = "Apikey".toList := by decide
  have h1 : CanonicalMIMEHeaderKey "Accept".toList = "Accept".toList := by decide
  have h3 : ¬ ("Accept".toList = "Apikey".toList) := by decide
  refine ⟨_, hbuilt, rfl, ParseQuery_Encode_three _ _ _, rfl, ?_, ?_⟩
  · unfold Header.Values
    rw [h1]
    simp only [mapGet, if_true]
  · unfold Header.Values
    rw [h2]
    simp only [mapGet, h3, if_false, if_true]

/-- Witness of C11: 10 EUR to USD with the key `alan-key`; the query string is
`amount=10&from=EUR&to=USD`. -/
theorem newConversionRequest_query_witness :
    sampleStd.ParseURL (sampleConverter ⟨200, ⟨[], none⟩⟩).uri
      = .ok { Scheme := "https".toList, Host := "api.apilayer.com".toList,
              Path := "/exchangerates_data/convert".toList, RawQuery := [] } ∧
    (sampleConverter ⟨200, ⟨[], none⟩⟩).newConversionRequest sampleStd
        ⟨"10".toList, "EUR".toList⟩ "USD".toList = .ok sampleUpstreamRequest ∧
    ∃ request, (sampleConverter ⟨200, ⟨[], none⟩⟩).newConversionRequest sampleStd
        ⟨"10".toList, "EUR".toList⟩ "USD".toList = .ok request ∧
      ParseQuery request.URL.RawQuery
        = some [(utf8Bytes "amount".toList, utf8Bytes "10".toList),
            (utf8Bytes "from".toList, utf8Bytes "EUR".toList),
            (utf8Bytes "to".toList, utf8Bytes "USD".toList)] := by
  refine ⟨by decide, by decide, ?_⟩
  obtain ⟨request, h1, _, h2, _⟩ := newConversionRequest_query sampleStd
    (sampleConverter ⟨200, ⟨[], none⟩⟩) ⟨"10".toList, "EUR".toList⟩ "USD".toList
    { Scheme := "https".toList, Host := "api.apilayer.com".toList,
      Path := "/exchangerates_data/convert".toList, RawQuery := [] } (by decide)
  exact ⟨request, h1, h2⟩

end CurrencyConversion
